import Mathlib

/-!
# Verification of the mGBA Qt input-routing core

Shallow embedding of `InputController` (input mapping and polling engine) and the
Windows raw-keyboard filter, together with proofs of the specified properties:
the continuous `pollEvents` bitmask with pending-event suppression, the per-tick
edge/transition detector `testGamepad`, axis threshold logic, the luminance
discretization model, the player-slot pool, and configuration loading.

Machine integers are modelled as `Nat`/`Int`; `uint8_t` narrowing is an explicit
`% 256`.  Qt sets (`QSet`) are modelled as duplicate-free lists (for the active
sets, whose iteration order the code leaves unspecified) and as `Finset Int` for
the pending-event set.  External collaborators (the `InputMapper` bitmask
reduction, event acceptance by the focused consumer, platform-key assignment)
enter as parameters, exactly where the source calls out to them.
-/

/-! ## Luminance model (`setLuminanceLevel` / `setLuminanceValue`, lines 655-683)

`GBA_LUX_LEVELS` is a constant of the emulator core, outside this translation
unit; it is passed as a parameter `lux : Nat → Nat` (the spec requires it to be
a fixed ascending threshold table).  A concrete instance is given below. -/

/-- The `clamp(level, 0, 10)` helper from `utils.h`. -/
def clamp (v lo hi : Int) : Int :=
  if v < lo then lo else if v > hi then hi else v

/-- Modelled from the spec: the fixed ascending luminance threshold table
`GBA_LUX_LEVELS` lives in the emulator core, not in this translation unit.
The spec requires only "a fixed ascending threshold table"; this is a concrete
strictly ascending instance used for witnesses. -/
def GBA_LUX_LEVELS : Nat → Nat := fun i =>
  [5, 11, 18, 27, 42, 62, 84, 106, 132, 160].getD i 0

/-- The level scan of `setLuminanceValue`: `m_luxLevel` defaults to 10 and the
loop breaks at the first `i < 10` with `value < GBA_LUX_LEVELS[i]`. -/
def luxLevelScan (lux : Nat → Nat) (adj : Nat) : Nat :=
  ((List.range 10).find? (fun i => adj < lux i)).getD 10

/-- `InputController::setLuminanceValue(uint8_t value)`: stores the raw value,
then recomputes the level from `max(value - 0x16, 0)` (truncated subtraction on
`Nat` is exactly this) by the scan.  Returns `(m_luxValue, m_luxLevel)`. -/
def setLuminanceValue (lux : Nat → Nat) (value : Nat) : Nat × Nat :=
  let v8 := value % 256
  let adj := v8 - 0x16
  (v8, luxLevelScan lux adj)

/-- `InputController::setLuminanceLevel(int level)`: clamps to `[0, 10]`,
computes `0x16` plus the table entry for `level - 1` when `level > 0`, and
feeds the resulting raw value to `setLuminanceValue`. -/
def setLuminanceLevel (lux : Nat → Nat) (level : Int) : Nat × Nat :=
  let l := clamp level 0 10
  let value : Nat := 0x16 + (if 0 < l then lux (l.toNat - 1) else 0)
  setLuminanceValue lux value

/-- The luminance sample callback (`m_lux.sample`, line 103):
`lux->value = 0xFF - lux->p->m_luxValue`. -/
def luxSample (luxValue : Nat) : Nat := 0xFF - luxValue

/-- The `m_lux.readLuminance` callback (line 108): returns the sampled value. -/
def readLuminance (sampled : Nat) : Nat := sampled

/-! ## Player-slot pool (`claimPlayer` / `freePlayer`, lines 602-614) -/

/-- The pool capacity; the abort message "Can't claim 5th player" fixes it at 4. -/
def MAX_GBAS : Nat := 4

/-- The scan loop of `claimPlayer`: `for (i = 0; i < MAX_GBAS; ++i)`, taking the
first `i` whose bit is clear in `s_claimedPlayers`, setting it, and returning
`i`.  Falling off the end is the `qFatal` branch, modelled as `none`.  The fuel
argument makes the recursion structural; `claimPlayer` supplies enough. -/
def claimPlayerLoop (claimed : Nat) : Nat → Nat → Option (Nat × Nat)
  | _, 0 => none
  | i, fuel + 1 =>
    if i < MAX_GBAS then
      if claimed &&& (1 <<< i) = 0 then some (i, claimed ||| (1 <<< i))
      else claimPlayerLoop claimed (i + 1) fuel
    else none

/-- `InputController::claimPlayer()` acting on the claimed-players bitmask:
returns `some (playerId, newClaimed)`, or `none` for the fatal exhaustion. -/
def claimPlayer (claimed : Nat) : Option (Nat × Nat) :=
  claimPlayerLoop claimed 0 MAX_GBAS

/-- `InputController::freePlayer(player)`: `s_claimedPlayers &= ~(1 << player)`,
with the `int` complement taken at 32 bits. -/
def freePlayer (claimed player : Nat) : Nat :=
  claimed &&& (0xFFFFFFFF ^^^ (1 <<< player))

/-- A slot index is the first free one: it is in range, its bit is clear, and
every lower bit is set. -/
def isFirstFree (claimed i : Nat) : Prop :=
  i < MAX_GBAS ∧ claimed &&& (1 <<< i) = 0 ∧ ∀ j < i, claimed &&& (1 <<< j) ≠ 0

instance (claimed i : Nat) : Decidable (isFirstFree claimed i) := by
  unfold isFirstFree; infer_instance

/-! ## Configuration loading (`loadConfiguration`, lines 196-207)

`mInputMapLoad` consults the external configuration store; its result enters as
the parameter `loaded`.  Driver-registry lookup enters as `hasDriver`. -/

/-- Result of `InputController::loadConfiguration(type)`: the returned `bool`
and whether `driver->bindDefaults(this)` was invoked. -/
structure LoadConfigResult where
  returned : Bool
  defaultsApplied : Bool
deriving DecidableEq

/-- `InputController::loadConfiguration(type)`: load bindings from the store;
if no driver is registered for `type`, return `false`; otherwise apply default
bindings exactly when the store had none, and return the store result. -/
def loadConfiguration (loaded hasDriver : Bool) : LoadConfigResult :=
  if !hasDriver then ⟨false, false⟩
  else if !loaded then ⟨loaded, true⟩
  else ⟨loaded, false⟩

/-! ## Raw keyboard filter (`RawKeyboardFilter_win.cpp`) -/

def Qt_Key_Up : Nat := 0x01000013
def Qt_Key_Down : Nat := 0x01000015
def Qt_Key_Left : Nat := 0x01000012
def Qt_Key_Right : Nat := 0x01000014
def Qt_Key_Z : Nat := 0x5A
def Qt_Key_X : Nat := 0x58
def Qt_Key_A : Nat := 0x41
def Qt_Key_S : Nat := 0x53
def Qt_Key_Return : Nat := 0x01000004
def Qt_Key_Backspace : Nat := 0x01000003
def Qt_Key_unknown : Nat := 0x01FFFFFF

/-- `RawKeyboardFilterWin::qtKeyFromVirtualKey(quint16 vk)`: the ten-case
switch mapping Windows virtual keys to Qt keys, defaulting to `Qt::Key_unknown`.
(`VK_UP = 0x26`, `VK_DOWN = 0x28`, `VK_LEFT = 0x25`, `VK_RIGHT = 0x27`,
`'Z' = 0x5A`, `'X' = 0x58`, `'A' = 0x41`, `'S' = 0x53`, `VK_RETURN = 0x0D`,
`VK_BACK = 0x08`.) -/
def qtKeyFromVirtualKey (vk : Nat) : Nat :=
  if vk = 0x26 then Qt_Key_Up
  else if vk = 0x28 then Qt_Key_Down
  else if vk = 0x25 then Qt_Key_Left
  else if vk = 0x27 then Qt_Key_Right
  else if vk = 0x5A then Qt_Key_Z
  else if vk = 0x58 then Qt_Key_X
  else if vk = 0x41 then Qt_Key_A
  else if vk = 0x53 then Qt_Key_S
  else if vk = 0x0D then Qt_Key_Return
  else if vk = 0x08 then Qt_Key_Backspace
  else Qt_Key_unknown

/-- The keyboard branch of `RawKeyboardFilterWin::nativeEventFilter`: with a
`RIM_TYPEKEYBOARD` packet, `pressed = !(Flags & RI_KEY_BREAK)`, and a key event
`(qtKey, pressed)` is enqueued exactly when the translation is not
`Qt::Key_unknown`. -/
def rawKeyboardEvent (vk : Nat) (isBreakFlag : Bool) : Option (Nat × Bool) :=
  let pressed := !isBreakFlag
  let qtKey := qtKeyFromVirtualKey vk
  if qtKey ≠ Qt_Key_unknown then some (qtKey, pressed) else none

/-- The ten virtual keys recognized by `qtKeyFromVirtualKey`. -/
def recognizedVKeys : List Nat :=
  [0x26, 0x28, 0x25, 0x27, 0x5A, 0x58, 0x41, 0x53, 0x0D, 0x08]

/-! ## Gamepad state and active sets (lines 431-480)

A `Gamepad` exposes ordered vectors of button booleans, signed axis readings and
hat direction bitmasks (`GamepadHatEvent::Direction`, with `CENTER = 0`).  A
disconnected pad (`gamepad(type)` returning null) is `none`. -/

/-- `GBA_KEY_MAX`: the GBA has ten logical buttons. -/
def GBA_KEY_MAX : Nat := 10

/-- Axis direction, `GamepadAxisEvent::Direction` (`POSITIVE` / `NEGATIVE`). -/
inductive AxisDir where
  | pos
  | neg
deriving DecidableEq, Repr

/-- The raw vectors a connected `Gamepad` reports. -/
structure Pad where
  buttons : List Bool
  axes : List Int
  hats : List Nat
deriving DecidableEq

/-- `InputController::activeGamepadButtons`: the indices of the pressed
buttons; empty for a disconnected pad. -/
def activeGamepadButtons : Option Pad → List Nat
  | none => []
  | some pad => (List.range pad.buttons.length).filter (fun i => pad.buttons.getD i false)

/-- `InputController::activeGamepadAxes`: axis `i` contributes `(i, POSITIVE)`
when `allAxes[i] - center(i) >= threshold(i)`, otherwise `(i, NEGATIVE)` when
`allAxes[i] - center(i) <= -threshold(i)`; `axisCenter` and `axisThreshold`
come from the `InputMapper` and enter as parameters. -/
def activeGamepadAxes (center threshold : Nat → Int) : Option Pad → List (Nat × AxisDir)
  | none => []
  | some pad => (List.range pad.axes.length).filterMap (fun i =>
      if pad.axes.getD i 0 - center i ≥ threshold i then some (i, AxisDir.pos)
      else if pad.axes.getD i 0 - center i ≤ -(threshold i) then some (i, AxisDir.neg)
      else none)

/-- `InputController::activeGamepadHats`: hat `i` contributes `(i, dir)` when
its direction is not `CENTER` (0). -/
def activeGamepadHats : Option Pad → List (Nat × Nat)
  | none => []
  | some pad => (List.range pad.hats.length).filterMap (fun i =>
      if pad.hats.getD i 0 ≠ 0 then some (i, pad.hats.getD i 0) else none)

/-! ## Pending-event bookkeeping (lines 574-600)

`m_pendingEvents` is a `QSet<int>` of platform keys; platform keys are `int`
(an unmapped control yields `-1`), hence `Finset Int`. -/

/-- `postPendingEvent(key)`: insert into `m_pendingEvents`. -/
def postPendingEvent (pending : Finset Int) (key : Int) : Finset Int :=
  insert key pending

/-- `clearPendingEvent(key)`: remove from `m_pendingEvents`. -/
def clearPendingEvent (pending : Finset Int) (key : Int) : Finset Int :=
  pending.erase key

/-- The set-bit indices of a key bitmask, in the order the
`for (int i = 0; keys; ++i, keys >>= 1)` loops visit them.  The first argument
is fuel making the recursion structural; `keys` itself always suffices, since
the bit length of `keys` never exceeds `keys`. -/
def bitIndicesAux : Nat → Nat → Nat → List Nat
  | 0, _, _ => []
  | fuel + 1, i, keys =>
    if keys = 0 then []
    else (if keys % 2 = 1 then [i] else []) ++ bitIndicesAux fuel (i + 1) (keys / 2)

/-- The set-bit indices of `keys`. -/
def bitIndices (keys : Nat) : List Nat := bitIndicesAux keys 0 keys

/-- `postPendingEvents(keys)`: insert every set-bit index of the bitmask. -/
def postPendingEvents (pending : Finset Int) (keys : Nat) : Finset Int :=
  (bitIndices keys).foldl (fun p i => insert (Nat.cast i) p) pending

/-- `clearPendingEvents(keys)`: remove every set-bit index of the bitmask. -/
def clearPendingEvents (pending : Finset Int) (keys : Nat) : Finset Int :=
  (bitIndices keys).foldl (fun p i => p.erase (Nat.cast i)) pending

/-- `hasPendingEvent(key)` (line 598). -/
def hasPendingEvent (pending : Finset Int) (key : Int) : Prop :=
  key ∈ pending

instance (pending : Finset Int) (key : Int) : Decidable (hasPendingEvent pending key) := by
  unfold hasPendingEvent; infer_instance

/-! ## The edge/transition detector `testGamepad` (lines 482-559) -/

/-- Discrete transition events posted by `sendGamepadEvent`, by category. -/
inductive Ev where
  | axisDown (axis : Nat) (dir : AxisDir)
  | axisUp (axis : Nat) (dir : AxisDir)
  | buttonDown (button : Nat)
  | buttonUp (button : Nat)
  | hatDown (hat : Nat) (dir : Nat)
  | hatUp (hat : Nat) (dir : Nat)
deriving DecidableEq, Repr

/-- The per-tick environment of `testGamepad`: the `InputMapper` axis
parameters, the focus gate inputs (`ignoreWindowFocus` option; the two
`QApplication::focusWidget()` reads), the platform-key assignment of events
(`GamepadAxisEvent::platformKey` etc., `-1` for an unmapped control; a hat
event carries a key bitmask), and whether the focused consumer accepts each
down event. -/
structure TickCfg where
  center : Nat → Int
  threshold : Nat → Int
  ignoreFocus : Bool
  focus1 : Bool
  focus2 : Bool
  axisKey : Nat → AxisDir → Int
  buttonKey : Nat → Int
  hatKeys : Nat → Nat → Nat
  acceptAxis : Nat → AxisDir → Bool
  acceptButton : Nat → Bool
  acceptHat : Nat → Nat → Bool

/-- The mutable controller state touched by a tick: the three previous active
sets and the pending-event set. -/
structure CtrlState where
  activeAxes : List (Nat × AxisDir)
  activeButtons : List Nat
  activeHats : List (Nat × Nat)
  pendingEvents : Finset Int

/-- `QSet::subtract`: the elements of `l₁` not in `l₂` (in `l₁` order). -/
def listDiff {α : Type} [DecidableEq α] (l₁ l₂ : List α) : List α :=
  l₁.filter (fun a => decide (a ∉ l₂))

/-- One newly-active (down) sub-step for a list of elements: post the pending
mark, dispatch, and clear the mark again if the consumer did not accept. -/
def processDowns {α : Type} (key : α → Int) (accept : α → Bool)
    (l : List α) (pending : Finset Int) : Finset Int :=
  l.foldl (fun p a =>
    let p' := postPendingEvent p (key a)
    if accept a then p' else clearPendingEvent p' (key a)) pending

/-- One newly-inactive (up) sub-step: clear the pending mark unconditionally
and dispatch. -/
def processUps {α : Type} (key : α → Int) (l : List α) (pending : Finset Int) : Finset Int :=
  l.foldl (fun p a => clearPendingEvent p (key a)) pending

/-- The hat down sub-step: a hat event carries a whole key bitmask. -/
def processHatDowns (hatKeys : Nat → Nat → Nat) (accept : Nat → Nat → Bool)
    (l : List (Nat × Nat)) (pending : Finset Int) : Finset Int :=
  l.foldl (fun p h =>
    let p' := postPendingEvents p (hatKeys h.1 h.2)
    if accept h.1 h.2 then p' else clearPendingEvents p' (hatKeys h.1 h.2)) pending

/-- The hat up sub-step: clear every key of the bitmask unconditionally. -/
def processHatUps (hatKeys : Nat → Nat → Nat)
    (l : List (Nat × Nat)) (pending : Finset Int) : Finset Int :=
  l.foldl (fun p h => clearPendingEvents p (hatKeys h.1 h.2)) pending

/-- The axis portion of a tick (lines 502-520): diff current against previous,
process downs then ups; returns the new pending set and the dispatched events.
The down loop of the source iterates the current set filtering by membership in
the subtraction, which visits exactly `current − previous` in current-set
order. -/
def axisPhase (cfg : TickCfg) (oldAxes curAxes : List (Nat × AxisDir))
    (pending : Finset Int) : Finset Int × List Ev :=
  let newA := listDiff curAxes oldAxes
  let goneA := listDiff oldAxes curAxes
  (processUps (fun a => cfg.axisKey a.1 a.2) goneA
    (processDowns (fun a => cfg.axisKey a.1 a.2) (fun a => cfg.acceptAxis a.1 a.2) newA pending),
   newA.map (fun a => Ev.axisDown a.1 a.2) ++ goneA.map (fun a => Ev.axisUp a.1 a.2))

/-- The button portion of a tick (lines 526-541). -/
def buttonPhase (cfg : TickCfg) (oldButtons curButtons : List Nat)
    (pending : Finset Int) : Finset Int × List Ev :=
  let newB := listDiff curButtons oldButtons
  let goneB := listDiff oldButtons curButtons
  (processUps cfg.buttonKey goneB
    (processDowns cfg.buttonKey cfg.acceptButton newB pending),
   newB.map Ev.buttonDown ++ goneB.map Ev.buttonUp)

/-- The hat portion of a tick (lines 543-558). -/
def hatPhase (cfg : TickCfg) (oldHats curHats : List (Nat × Nat))
    (pending : Finset Int) : Finset Int × List Ev :=
  let newH := listDiff curHats oldHats
  let goneH := listDiff oldHats curHats
  (processHatUps cfg.hatKeys goneH
    (processHatDowns cfg.hatKeys cfg.acceptHat newH pending),
   newH.map (fun h => Ev.hatDown h.1 h.2) ++ goneH.map (fun h => Ev.hatUp h.1 h.2))

/-- `InputController::testGamepad(type)`: compute the three current active sets
and store them over the previous ones; return early (dispatching nothing) when
focus is absent and not overridden; otherwise run the axis phase, re-check the
focus gate, and run the button and hat phases.  Returns the new state and the
dispatched events in order. -/
def testGamepad (cfg : TickCfg) (st : CtrlState) (pad : Option Pad) : CtrlState × List Ev :=
  let curAxes := activeGamepadAxes cfg.center cfg.threshold pad
  let curButtons := activeGamepadButtons pad
  let curHats := activeGamepadHats pad
  if cfg.ignoreFocus = false ∧ cfg.focus1 = false then
    (⟨curAxes, curButtons, curHats, st.pendingEvents⟩, [])
  else
    let ax := axisPhase cfg st.activeAxes curAxes st.pendingEvents
    if cfg.ignoreFocus = false ∧ cfg.focus2 = false then
      (⟨curAxes, curButtons, curHats, ax.1⟩, ax.2)
    else
      let bt := buttonPhase cfg st.activeButtons curButtons ax.1
      let ht := hatPhase cfg st.activeHats curHats bt.1
      (⟨curAxes, curButtons, curHats, ht.1⟩, ax.2 ++ bt.2 ++ ht.2)

/-! ## The continuous bitmask path `pollEvents` (lines 388-403) -/

/-- The three `InputMapper` bitmask reductions of one connected pad
(`mapKeys(currentButtons())`, `mapAxes(currentAxes())`, `mapHats(currentHats())`);
the reductions themselves belong to the external `InputMapper`. -/
structure PadMasks where
  keys : Nat
  axes : Nat
  hats : Nat
deriving DecidableEq

/-- `InputController::pollEvents()`: union the mapped bitmasks of every
gamepad-capable connected device, then clear every logical button
`0 ≤ i < GBA_KEY_MAX` that is both set and pending (`activeButtons ^= 1 << i`). -/
def pollEvents (pads : List PadMasks) (pending : Finset Int) : Nat :=
  let active := pads.foldl (fun acc p => acc ||| p.keys ||| p.axes ||| p.hats) 0
  (List.range GBA_KEY_MAX).foldl
    (fun acc i =>
      if acc &&& (1 <<< i) ≠ 0 ∧ hasPendingEvent pending (i : Int) then acc ^^^ (1 <<< i)
      else acc) active

/-! ## Concrete instances used to evaluate the definitions -/

/-- A concrete tick environment: focused, everything accepted, buttons mapped
to their own index, axes to keys 2i / 2i+1, hats to direction bitmasks. -/
def sampleCfg : TickCfg where
  center := fun _ => 0
  threshold := fun _ => 100
  ignoreFocus := false
  focus1 := true
  focus2 := true
  axisKey := fun i d => if d = AxisDir.pos then (2 * i : Int) else (2 * i + 1 : Int)
  buttonKey := fun b => (b : Int)
  hatKeys := fun _ d => d
  acceptAxis := fun _ _ => true
  acceptButton := fun _ => true
  acceptHat := fun _ _ => true

/-- The empty controller state. -/
def emptyState : CtrlState := ⟨[], [], [], ∅⟩

/-- The first focus gate passes: the `ignoreWindowFocus` override is set or a
widget had focus at the first check (line 498). -/
def gateAxes (cfg : TickCfg) : Prop :=
  cfg.ignoreFocus = true ∨ cfg.focus1 = true

/-- Both focus gates pass (lines 498 and 522), so button and hat processing is
reached. -/
def gateButtons (cfg : TickCfg) : Prop :=
  cfg.ignoreFocus = true ∨ (cfg.focus1 = true ∧ cfg.focus2 = true)

instance (cfg : TickCfg) : Decidable (gateAxes cfg) := by
  unfold gateAxes; infer_instance

instance (cfg : TickCfg) : Decidable (gateButtons cfg) := by
  unfold gateButtons; infer_instance

/-- A property holding of the payload of an `Option`, vacuously for `none`
(used to state facts about the result of a claim that may be fatal). -/
def OptionForall {α : Type} (o : Option α) (P : α → Prop) : Prop :=
  match o with
  | none => True
  | some a => P a

instance {α : Type} (o : Option α) (P : α → Prop) [DecidablePred P] :
    Decidable (OptionForall o P) := by
  cases o with
  | none => exact isTrue trivial
  | some a => exact inferInstanceAs (Decidable (P a))

/-! ## Basic lemmas: set difference, pending folds, bit indices -/

theorem mem_listDiff {α : Type} [DecidableEq α] {l₁ l₂ : List α} {a : α} :
    a ∈ listDiff l₁ l₂ ↔ a ∈ l₁ ∧ a ∉ l₂ := by
  simp [listDiff]

theorem listDiff_self {α : Type} [DecidableEq α] (l : List α) : listDiff l l = [] := by
  simp [listDiff, List.filter_eq_nil_iff]

theorem listDiff_nodup {α : Type} [DecidableEq α] {l₁ : List α} (l₂ : List α)
    (h : l₁.Nodup) : (listDiff l₁ l₂).Nodup :=
  h.filter _

theorem mem_processUps {α : Type} (key : α → Int) (l : List α) (p : Finset Int) (k : Int) :
    k ∈ processUps key l p ↔ k ∈ p ∧ ∀ a ∈ l, key a ≠ k := by
  induction l generalizing p with
  | nil => simp [processUps]
  | cons a t ih =>
    have step : processUps key (a :: t) p = processUps key t (clearPendingEvent p (key a)) := rfl
    rw [step, ih, clearPendingEvent]
    simp only [Finset.mem_erase, List.mem_cons]
    constructor
    · rintro ⟨⟨hne, hp⟩, hall⟩
      exact ⟨hp, fun b hb => hb.elim (fun hba => hba ▸ fun h => hne h.symm) (hall b)⟩
    · rintro ⟨hp, hall⟩
      exact ⟨⟨fun h => hall a (Or.inl rfl) h.symm, hp⟩, fun b hb => hall b (Or.inr hb)⟩

theorem mem_processDowns_of_ne {α : Type} (key : α → Int) (accept : α → Bool)
    (l : List α) (p : Finset Int) (k : Int) (h : ∀ a ∈ l, key a ≠ k) :
    k ∈ processDowns key accept l p ↔ k ∈ p := by
  induction l generalizing p with
  | nil => simp [processDowns]
  | cons a t ih =>
    have step : processDowns key accept (a :: t) p =
        processDowns key accept t
          (if accept a then postPendingEvent p (key a)
           else clearPendingEvent (postPendingEvent p (key a)) (key a)) := by
      simp only [processDowns, List.foldl_cons]
    rw [step, ih _ (fun b hb => h b (List.mem_cons_of_mem a hb))]
    have hka : key a ≠ k := h a (List.mem_cons_self a t)
    by_cases hacc : accept a = true
    · simp [hacc, postPendingEvent, Ne.symm hka]
    · simp only [Bool.not_eq_true] at hacc
      simp [hacc, postPendingEvent, clearPendingEvent, Finset.mem_erase, Ne.symm hka]

theorem mem_processDowns_preserved {α : Type} (key : α → Int) (accept : α → Bool)
    (l : List α) (p : Finset Int) (k : Int)
    (h : ∀ a ∈ l, key a = k → accept a = true) (hk : k ∈ p) :
    k ∈ processDowns key accept l p := by
  induction l generalizing p with
  | nil => simpa [processDowns] using hk
  | cons a t ih =>
    have step : processDowns key accept (a :: t) p =
        processDowns key accept t
          (if accept a then postPendingEvent p (key a)
           else clearPendingEvent (postPendingEvent p (key a)) (key a)) := by
      simp only [processDowns, List.foldl_cons]
    rw [step]
    refine ih _ (fun b hb => h b (List.mem_cons_of_mem a hb)) ?_
    by_cases hka : key a = k
    · have : accept a = true := h a (List.mem_cons_self a t) hka
      simp [this, postPendingEvent, Finset.mem_insert, hka]
    · by_cases hacc : accept a = true
      · simp [hacc, postPendingEvent, Finset.mem_insert, hk]
      · simp only [Bool.not_eq_true] at hacc
        simp [hacc, postPendingEvent, clearPendingEvent, Finset.mem_erase,
          Finset.mem_insert, hk, Ne.symm hka]

theorem mem_processDowns_of_accept {α : Type} (key : α → Int) (accept : α → Bool)
    (l : List α) (p : Finset Int) (k : Int) (b : α) (hb : b ∈ l) (hkb : key b = k)
    (h : ∀ a ∈ l, key a = k → accept a = true) :
    k ∈ processDowns key accept l p := by
  induction l generalizing p with
  | nil => cases hb
  | cons a t ih =>
    have step : processDowns key accept (a :: t) p =
        processDowns key accept t
          (if accept a then postPendingEvent p (key a)
           else clearPendingEvent (postPendingEvent p (key a)) (key a)) := by
      simp only [processDowns, List.foldl_cons]
    rw [step]
    rcases List.mem_cons.mp hb with rfl | hbt
    · have hacc : accept b = true := h b (List.mem_cons_self b t) hkb
      refine mem_processDowns_preserved key accept t _ k
        (fun c hc => h c (List.mem_cons_of_mem b hc)) ?_
      simp [hacc, postPendingEvent, Finset.mem_insert, hkb]
    · exact ih _ hbt (fun c hc => h c (List.mem_cons_of_mem a hc))

theorem mem_bitIndicesAux (fuel : Nat) : ∀ (i keys j : Nat), keys ≤ fuel →
    (j ∈ bitIndicesAux fuel i keys ↔ ∃ b, j = i + b ∧ keys.testBit b = true) := by
  induction fuel with
  | zero =>
    intro i keys j hk
    interval_cases keys
    simp [bitIndicesAux]
  | succ fuel ih =>
    intro i keys j hk
    by_cases h0 : keys = 0
    · subst h0
      simp [bitIndicesAux, Nat.zero_testBit]
    · have hrec : keys / 2 ≤ fuel := by omega
      have step : bitIndicesAux (fuel + 1) i keys =
          (if keys % 2 = 1 then [i] else []) ++ bitIndicesAux fuel (i + 1) (keys / 2) := by
        simp [bitIndicesAux, h0]
      rw [step]
      simp only [List.mem_append, ih (i + 1) (keys / 2) j hrec]
      constructor
      · rintro (hj | ⟨b, rfl, hb⟩)
        · by_cases hodd : keys % 2 = 1
          · simp only [hodd, if_pos, List.mem_singleton] at hj
            exact ⟨0, by omega, by rw [Nat.testBit_zero]; simpa using hodd⟩
          · simp [hodd] at hj
        · exact ⟨b + 1, by omega, by rwa [Nat.testBit_succ]⟩
      · rintro ⟨b, rfl, hb⟩
        cases b with
        | zero =>
          left
          rw [Nat.testBit_zero] at hb
          simp only [decide_eq_true_eq] at hb
          simp [hb]
        | succ b =>
          right
          rw [Nat.testBit_succ] at hb
          exact ⟨b, by omega, hb⟩

theorem mem_bitIndices {keys j : Nat} : j ∈ bitIndices keys ↔ keys.testBit j = true := by
  rw [bitIndices, mem_bitIndicesAux keys 0 keys j (le_refl keys)]
  constructor
  · rintro ⟨b, rfl, hb⟩
    simpa using hb
  · intro h
    exact ⟨j, by omega, h⟩

theorem mem_postPendingEvents {p : Finset Int} {keys : Nat} {k : Int} :
    k ∈ postPendingEvents p keys ↔ k ∈ p ∨ ∃ i, keys.testBit i = true ∧ (i : Int) = k := by
  have gen : ∀ (l : List Nat) (p : Finset Int),
      k ∈ l.foldl (fun q i => insert (Nat.cast i) q) p ↔ k ∈ p ∨ ∃ i ∈ l, (i : Int) = k := by
    intro l
    induction l with
    | nil => simp
    | cons a t ih =>
      intro p
      simp only [List.foldl_cons, ih, Finset.mem_insert, List.mem_cons]
      constructor
      · rintro ((rfl | hp) | ⟨i, hi, rfl⟩)
        · exact Or.inr ⟨a, Or.inl rfl, rfl⟩
        · exact Or.inl hp
        · exact Or.inr ⟨i, Or.inr hi, rfl⟩
      · rintro (hp | ⟨i, (rfl | hi), rfl⟩)
        · exact Or.inl (Or.inr hp)
        · exact Or.inl (Or.inl rfl)
        · exact Or.inr ⟨i, hi, rfl⟩
  rw [postPendingEvents, gen]
  simp only [mem_bitIndices]

theorem mem_clearPendingEvents {p : Finset Int} {keys : Nat} {k : Int} :
    k ∈ clearPendingEvents p keys ↔ k ∈ p ∧ ∀ i, keys.testBit i = true → (i : Int) ≠ k := by
  have gen : ∀ (l : List Nat) (p : Finset Int),
      k ∈ l.foldl (fun q i => q.erase (Nat.cast i)) p ↔ k ∈ p ∧ ∀ i ∈ l, (i : Int) ≠ k := by
    intro l
    induction l with
    | nil => simp
    | cons a t ih =>
      intro p
      simp only [List.foldl_cons, ih, Finset.mem_erase, List.mem_cons]
      constructor
      · rintro ⟨⟨hne, hp⟩, hall⟩
        exact ⟨hp, fun i hi => hi.elim (fun h => h ▸ fun he => hne he.symm) (hall i)⟩
      · rintro ⟨hp, hall⟩
        exact ⟨⟨fun h => hall a (Or.inl rfl) h.symm, hp⟩, fun i hi => hall i (Or.inr hi)⟩
  rw [clearPendingEvents, gen]
  simp only [mem_bitIndices]

theorem mem_processHatUps (hatKeys : Nat → Nat → Nat) (l : List (Nat × Nat))
    (p : Finset Int) (k : Int) :
    k ∈ processHatUps hatKeys l p ↔
      k ∈ p ∧ ∀ h ∈ l, ∀ i, (hatKeys h.1 h.2).testBit i = true → (i : Int) ≠ k := by
  induction l generalizing p with
  | nil => simp [processHatUps]
  | cons a t ih =>
    have step : processHatUps hatKeys (a :: t) p =
        processHatUps hatKeys t (clearPendingEvents p (hatKeys a.1 a.2)) := rfl
    rw [step, ih, mem_clearPendingEvents]
    simp only [List.mem_cons]
    constructor
    · rintro ⟨⟨hp, ha⟩, hall⟩
      exact ⟨hp, fun h hh => hh.elim (fun he => he ▸ ha) (hall h)⟩
    · rintro ⟨hp, hall⟩
      exact ⟨⟨hp, hall a (Or.inl rfl)⟩, fun h hh => hall h (Or.inr hh)⟩

theorem mem_processHatDowns_of_ne (hatKeys : Nat → Nat → Nat) (accept : Nat → Nat → Bool)
    (l : List (Nat × Nat)) (p : Finset Int) (k : Int)
    (h : ∀ a ∈ l, ∀ i, (hatKeys a.1 a.2).testBit i = true → (i : Int) ≠ k) :
    k ∈ processHatDowns hatKeys accept l p ↔ k ∈ p := by
  induction l generalizing p with
  | nil => simp [processHatDowns]
  | cons a t ih =>
    have step : processHatDowns hatKeys accept (a :: t) p =
        processHatDowns hatKeys accept t
          (if accept a.1 a.2 then postPendingEvents p (hatKeys a.1 a.2)
           else clearPendingEvents (postPendingEvents p (hatKeys a.1 a.2)) (hatKeys a.1 a.2)) := by
      simp only [processHatDowns, List.foldl_cons]
    rw [step, ih _ (fun b hb => h b (List.mem_cons_of_mem a hb))]
    have ha := h a (List.mem_cons_self a t)
    by_cases hacc : accept a.1 a.2 = true
    · rw [if_pos hacc, mem_postPendingEvents]
      constructor
      · rintro (hp | ⟨i, hi, hik⟩)
        · exact hp
        · exact absurd hik (ha i hi)
      · exact Or.inl
    · simp only [Bool.not_eq_true] at hacc
      rw [if_neg (by simp [hacc]), mem_clearPendingEvents, mem_postPendingEvents]
      constructor
      · rintro ⟨(hp | ⟨i, hi, hik⟩), _⟩
        · exact hp
        · exact absurd hik (ha i hi)
      · intro hp
        exact ⟨Or.inl hp, fun i hi => ha i hi⟩

theorem notmem_processDowns_preserved {α : Type} (key : α → Int) (accept : α → Bool)
    (l : List α) (p : Finset Int) (k : Int)
    (h : ∀ a ∈ l, key a = k → accept a = false) (hk : k ∉ p) :
    k ∉ processDowns key accept l p := by
  induction l generalizing p with
  | nil => simpa [processDowns] using hk
  | cons a t ih =>
    have step : processDowns key accept (a :: t) p =
        processDowns key accept t
          (if accept a then postPendingEvent p (key a)
           else clearPendingEvent (postPendingEvent p (key a)) (key a)) := by
      simp only [processDowns, List.foldl_cons]
    rw [step]
    refine ih _ (fun b hb => h b (List.mem_cons_of_mem a hb)) ?_
    by_cases hka : key a = k
    · have hacc : accept a = false := h a (List.mem_cons_self a t) hka
      simp [hacc, postPendingEvent, clearPendingEvent, Finset.mem_erase, hka]
    · by_cases hacc : accept a = true
      · simp only [hacc, if_pos, postPendingEvent, Finset.mem_insert]
        rintro (h' | h')
        · exact hka h'.symm
        · exact hk h'
      · simp only [Bool.not_eq_true] at hacc
        simp only [hacc, Bool.false_eq_true, if_neg, not_false_eq_true, postPendingEvent,
          clearPendingEvent, Finset.mem_erase, Finset.mem_insert]
        rintro ⟨_, h' | h'⟩
        · exact hka h'.symm
        · exact hk h'

theorem notmem_processUps_preserved {α : Type} (key : α → Int) (l : List α)
    (p : Finset Int) (k : Int) (hk : k ∉ p) : k ∉ processUps key l p := by
  intro habs
  exact hk ((mem_processUps key l p k).mp habs).1

theorem notmem_processHatDowns_preserved (hatKeys : Nat → Nat → Nat)
    (accept : Nat → Nat → Bool) (l : List (Nat × Nat)) (p : Finset Int) (k : Int)
    (h : ∀ a ∈ l, accept a.1 a.2 = true →
      ∀ i, (hatKeys a.1 a.2).testBit i = true → (i : Int) ≠ k)
    (hk : k ∉ p) : k ∉ processHatDowns hatKeys accept l p := by
  induction l generalizing p with
  | nil => simpa [processHatDowns] using hk
  | cons a t ih =>
    have step : processHatDowns hatKeys accept (a :: t) p =
        processHatDowns hatKeys accept t
          (if accept a.1 a.2 then postPendingEvents p (hatKeys a.1 a.2)
           else clearPendingEvents (postPendingEvents p (hatKeys a.1 a.2)) (hatKeys a.1 a.2)) := by
      simp only [processHatDowns, List.foldl_cons]
    rw [step]
    refine ih _ (fun b hb => h b (List.mem_cons_of_mem a hb)) ?_
    by_cases hacc : accept a.1 a.2 = true
    · rw [if_pos hacc, mem_postPendingEvents]
      rintro (h' | ⟨i, hi, hik⟩)
      · exact hk h'
      · exact h a (List.mem_cons_self a t) hacc i hi hik
    · simp only [Bool.not_eq_true] at hacc
      rw [if_neg (by simp [hacc]), mem_clearPendingEvents, mem_postPendingEvents]
      rintro ⟨h' | ⟨i, hi, hik⟩, hall⟩
      · exact hk h'
      · exact hall i hi hik

theorem notmem_processHatUps_preserved (hatKeys : Nat → Nat → Nat)
    (l : List (Nat × Nat)) (p : Finset Int) (k : Int) (hk : k ∉ p) :
    k ∉ processHatUps hatKeys l p := by
  intro habs
  exact hk ((mem_processHatUps hatKeys l p k).mp habs).1

/-! ## Active-set membership and duplicate-freedom -/

theorem mem_activeGamepadButtons {pad : Pad} {i : Nat} :
    i ∈ activeGamepadButtons (some pad) ↔
      i < pad.buttons.length ∧ pad.buttons.getD i false = true := by
  simp [activeGamepadButtons, List.mem_filter, List.mem_range]

theorem mem_activeGamepadAxes_pos {center threshold : Nat → Int} {pad : Pad} {i : Nat} :
    (i, AxisDir.pos) ∈ activeGamepadAxes center threshold (some pad) ↔
      i < pad.axes.length ∧ threshold i ≤ pad.axes.getD i 0 - center i := by
  rw [activeGamepadAxes, List.mem_filterMap]
  constructor
  · rintro ⟨a, ha, hfa⟩
    rw [List.mem_range] at ha
    split_ifs at hfa with h1 h2 <;> cases hfa
    exact ⟨ha, h1⟩
  · rintro ⟨hi, hv⟩
    refine ⟨i, List.mem_range.mpr hi, ?_⟩
    rw [if_pos hv]

theorem mem_activeGamepadAxes_neg {center threshold : Nat → Int} {pad : Pad} {i : Nat} :
    (i, AxisDir.neg) ∈ activeGamepadAxes center threshold (some pad) ↔
      i < pad.axes.length ∧ pad.axes.getD i 0 - center i ≤ -threshold i ∧
        ¬threshold i ≤ pad.axes.getD i 0 - center i := by
  rw [activeGamepadAxes, List.mem_filterMap]
  constructor
  · rintro ⟨a, ha, hfa⟩
    rw [List.mem_range] at ha
    split_ifs at hfa with h1 h2 <;> cases hfa
    exact ⟨ha, h2, h1⟩
  · rintro ⟨hi, hv, hnv⟩
    refine ⟨i, List.mem_range.mpr hi, ?_⟩
    rw [if_neg hnv, if_pos hv]

theorem mem_activeGamepadHats {pad : Pad} {i d : Nat} :
    (i, d) ∈ activeGamepadHats (some pad) ↔
      i < pad.hats.length ∧ pad.hats.getD i 0 = d ∧ d ≠ 0 := by
  rw [activeGamepadHats, List.mem_filterMap]
  constructor
  · rintro ⟨a, ha, hfa⟩
    rw [List.mem_range] at ha
    split_ifs at hfa with h1 <;> cases hfa
    exact ⟨ha, rfl, h1⟩
  · rintro ⟨hi, hd, h0⟩
    refine ⟨i, List.mem_range.mpr hi, ?_⟩
    rw [hd, if_pos h0]

theorem nodup_activeGamepadButtons (pad : Option Pad) : (activeGamepadButtons pad).Nodup := by
  cases pad with
  | none => exact List.nodup_nil
  | some p => exact (List.nodup_range _).filter _

theorem nodup_filterMap_range {β : Type} (f : Nat → Option (Nat × β))
    (h : ∀ i x, f i = some x → x.1 = i) (n : Nat) :
    ((List.range n).filterMap f).Nodup := by
  refine List.Nodup.filterMap ?_ (List.nodup_range n)
  intro a a' b hb hb'
  rw [Option.mem_def] at hb hb'
  rw [← h a b hb, ← h a' b hb']

theorem nodup_activeGamepadAxes (center threshold : Nat → Int) (pad : Option Pad) :
    (activeGamepadAxes center threshold pad).Nodup := by
  cases pad with
  | none => exact List.nodup_nil
  | some p =>
    refine nodup_filterMap_range _ ?_ _
    intro i x hx
    split_ifs at hx <;> cases hx <;> rfl

theorem nodup_activeGamepadHats (pad : Option Pad) : (activeGamepadHats pad).Nodup := by
  cases pad with
  | none => exact List.nodup_nil
  | some p =>
    refine nodup_filterMap_range _ ?_ _
    intro i x hx
    split_ifs at hx <;> cases hx <;> rfl

/-! ## Bitmask lemmas for `pollEvents` -/

theorem and_shiftLeft_ne_zero {n i : Nat} : n &&& (1 <<< i) ≠ 0 ↔ n.testBit i = true := by
  rw [Nat.one_shiftLeft, Nat.and_two_pow]
  cases h : n.testBit i
  · simp
  · simpa using (Nat.two_pow_pos i).ne'

theorem testBit_foldl_or (pads : List PadMasks) (a : Nat) (i : Nat) :
    ((pads.foldl (fun acc p => acc ||| p.keys ||| p.axes ||| p.hats) a).testBit i = true) ↔
      a.testBit i = true ∨ ∃ p ∈ pads, ((p.keys ||| p.axes ||| p.hats).testBit i = true) := by
  induction pads generalizing a with
  | nil => simp
  | cons p t ih =>
    rw [List.foldl_cons, ih]
    simp only [List.mem_cons, Nat.testBit_or]
    constructor
    · rintro (h | ⟨q, hq, hb⟩)
      · rcases Bool.or_eq_true_iff.mp h with h' | h'
        · rcases Bool.or_eq_true_iff.mp h' with h'' | h''
          · rcases Bool.or_eq_true_iff.mp h'' with h3 | h3
            · exact Or.inl h3
            · exact Or.inr ⟨p, Or.inl rfl, by simp [h3]⟩
          · exact Or.inr ⟨p, Or.inl rfl, by simp [h'']⟩
        · exact Or.inr ⟨p, Or.inl rfl, by simp [h']⟩
      · exact Or.inr ⟨q, Or.inr hq, hb⟩
    · rintro (h | ⟨q, (rfl | hq), hb⟩)
      · exact Or.inl (by simp [h])
      · rcases Bool.or_eq_true_iff.mp hb with h' | h'
        · rcases Bool.or_eq_true_iff.mp h' with h'' | h''
          · exact Or.inl (by simp [h''])
          · exact Or.inl (by simp [h''])
        · exact Or.inl (by simp [h'])
      · exact Or.inr ⟨q, hq, hb⟩

theorem pollLoop_testBit (pending : Finset Int) :
    ∀ (n : Nat) (acc j : Nat),
      ((List.range n).foldl
        (fun acc i =>
          if acc &&& (1 <<< i) ≠ 0 ∧ hasPendingEvent pending (i : Int) then acc ^^^ (1 <<< i)
          else acc) acc).testBit j = true ↔
      acc.testBit j = true ∧ ¬(j < n ∧ hasPendingEvent pending (j : Int)) := by
  intro n
  induction n with
  | zero => intro acc j; simp
  | succ n ih =>
    intro acc j
    rw [List.range_succ, List.foldl_append, List.foldl_cons, List.foldl_nil]
    by_cases hc : ((List.range n).foldl
        (fun acc i =>
          if acc &&& (1 <<< i) ≠ 0 ∧ hasPendingEvent pending (i : Int) then acc ^^^ (1 <<< i)
          else acc) acc) &&& (1 <<< n) ≠ 0 ∧ hasPendingEvent pending (n : Int)
    · rw [if_pos hc, Nat.one_shiftLeft, Nat.testBit_xor, Nat.testBit_two_pow]
      by_cases hjn : j = n
      · subst hjn
        constructor
        · intro habs
          rw [and_shiftLeft_ne_zero.mp hc.1] at habs
          simp at habs
        · rintro ⟨_, habs⟩
          exact absurd ⟨Nat.lt_succ_self j, hc.2⟩ habs
      · have h2 : decide (n = j) = false := by simp [Ne.symm hjn]
        rw [h2]
        simp only [Bool.xor_false]
        rw [ih acc j]
        constructor
        · rintro ⟨hb, hnj⟩
          exact ⟨hb, fun ⟨hlt, hp⟩ => hnj ⟨by omega, hp⟩⟩
        · rintro ⟨hb, hnj⟩
          exact ⟨hb, fun ⟨hlt, hp⟩ => hnj ⟨by omega, hp⟩⟩
    · rw [if_neg hc, ih acc j]
      by_cases hjn : j = n
      · subst hjn
        rcases Classical.em (hasPendingEvent pending (j : Int)) with hp | hp
        · have hAn : ((List.range j).foldl
              (fun acc i =>
                if acc &&& (1 <<< i) ≠ 0 ∧ hasPendingEvent pending (i : Int) then acc ^^^ (1 <<< i)
                else acc) acc).testBit j = false := by
            rcases Bool.eq_false_or_eq_true (((List.range j).foldl
              (fun acc i =>
                if acc &&& (1 <<< i) ≠ 0 ∧ hasPendingEvent pending (i : Int) then acc ^^^ (1 <<< i)
                else acc) acc).testBit j) with h | h
            · exact absurd ⟨and_shiftLeft_ne_zero.mpr h, hp⟩ hc
            · exact h
          have hacc : ¬(acc.testBit j = true ∧ ¬(j < j ∧ hasPendingEvent pending (j : Int))) := by
            intro habs
            have := (ih acc j).mpr habs
            rw [hAn] at this
            cases this
          constructor
          · intro ⟨hb, hnj⟩
            exact absurd ⟨hb, fun ⟨hlt, _⟩ => by omega⟩ hacc
          · intro ⟨hb, hnj⟩
            exact absurd ⟨hb, fun ⟨hlt, _⟩ => by omega⟩ hacc
        · constructor
          · rintro ⟨hb, _⟩
            exact ⟨hb, fun ⟨_, hp'⟩ => hp hp'⟩
          · rintro ⟨hb, _⟩
            exact ⟨hb, fun ⟨hlt, _⟩ => by omega⟩
      · constructor
        · rintro ⟨hb, hnj⟩
          exact ⟨hb, fun ⟨hlt, hp⟩ => hnj ⟨by omega, hp⟩⟩
        · rintro ⟨hb, hnj⟩
          exact ⟨hb, fun ⟨hlt, hp⟩ => hnj ⟨by omega, hp⟩⟩

theorem pollEvents_testBit (pads : List PadMasks) (pending : Finset Int) (i : Nat)
    (h : i < GBA_KEY_MAX) :
    (pollEvents pads pending).testBit i = true ↔
      (∃ p ∈ pads, ((p.keys ||| p.axes ||| p.hats).testBit i = true)) ∧
        ¬hasPendingEvent pending (i : Int) := by
  rw [pollEvents]
  rw [pollLoop_testBit pending GBA_KEY_MAX _ i, testBit_foldl_or]
  simp only [Nat.zero_testBit, Bool.false_eq_true, false_or]
  constructor
  · rintro ⟨hb, hnj⟩
    exact ⟨hb, fun hp => hnj ⟨h, hp⟩⟩
  · rintro ⟨hb, hnp⟩
    exact ⟨hb, fun ⟨_, hp⟩ => hnp hp⟩

/-! ## Lemmas for the luminance scan -/

theorem find?_range'_eq_none (p : Nat → Bool) :
    ∀ (n s : Nat), (∀ j, s ≤ j → j < s + n → p j = false) →
      (List.range' s n).find? p = none := by
  intro n
  induction n with
  | zero => intro s _; rfl
  | succ n ih =>
    intro s h
    rw [List.range'_succ, List.find?_cons_of_neg _ (by simp [h s le_rfl (by omega)])]
    exact ih (s + 1) (fun j h1 h2 => h j (by omega) (by omega))

theorem find?_range'_eq_some (p : Nat → Bool) :
    ∀ (n s L : Nat), s ≤ L → L < s + n → (∀ j, s ≤ j → j < L → p j = false) → p L = true →
      (List.range' s n).find? p = some L := by
  intro n
  induction n with
  | zero => intro s L h1 h2 _ _; omega
  | succ n ih =>
    intro s L h1 h2 hbelow hL
    rw [List.range'_succ]
    by_cases hsL : s = L
    · subst hsL
      exact List.find?_cons_of_pos _ hL
    · rw [List.find?_cons_of_neg _ (by simp [hbelow s le_rfl (by omega)])]
      exact ih (s + 1) L (by omega) (by omega) (fun j ha hb => hbelow j (by omega) hb) hL

theorem luxLevelScan_eq (lux : Nat → Nat) (adj L : Nat) (hL : L ≤ 10)
    (hbelow : ∀ j < L, ¬adj < lux j) (hat : L < 10 → adj < lux L) :
    luxLevelScan lux adj = L := by
  rw [luxLevelScan, List.range_eq_range']
  by_cases h10 : L < 10
  · rw [find?_range'_eq_some (fun i => decide (adj < lux i)) 10 0 L (by omega) (by omega)
      (fun j _ hj => by simpa using hbelow j hj) (by simpa using hat h10)]
    rfl
  · have hL10 : L = 10 := by omega
    subst hL10
    rw [find?_range'_eq_none (fun i => decide (adj < lux i)) 10 0
      (fun j h1 h2 => by simpa using hbelow j (by omega))]
    rfl

/-! ## Unfolding `testGamepad` by focus-gate shape -/

theorem testGamepad_noFocus (cfg : TickCfg) (st : CtrlState) (pad : Option Pad)
    (h1 : cfg.ignoreFocus = false) (h2 : cfg.focus1 = false) :
    testGamepad cfg st pad =
      (⟨activeGamepadAxes cfg.center cfg.threshold pad, activeGamepadButtons pad,
        activeGamepadHats pad, st.pendingEvents⟩, []) := by
  simp [testGamepad, h1, h2]

theorem testGamepad_axesOnly (cfg : TickCfg) (st : CtrlState) (pad : Option Pad)
    (h1 : cfg.ignoreFocus = false) (h2 : cfg.focus1 = true) (h3 : cfg.focus2 = false) :
    testGamepad cfg st pad =
      (⟨activeGamepadAxes cfg.center cfg.threshold pad, activeGamepadButtons pad,
        activeGamepadHats pad,
        (axisPhase cfg st.activeAxes (activeGamepadAxes cfg.center cfg.threshold pad)
          st.pendingEvents).1⟩,
       (axisPhase cfg st.activeAxes (activeGamepadAxes cfg.center cfg.threshold pad)
          st.pendingEvents).2) := by
  simp [testGamepad, h1, h2, h3]

theorem testGamepad_full (cfg : TickCfg) (st : CtrlState) (pad : Option Pad)
    (h : cfg.ignoreFocus = true ∨ (cfg.focus1 = true ∧ cfg.focus2 = true)) :
    testGamepad cfg st pad =
      (let curAxes := activeGamepadAxes cfg.center cfg.threshold pad
       let curButtons := activeGamepadButtons pad
       let curHats := activeGamepadHats pad
       let ax := axisPhase cfg st.activeAxes curAxes st.pendingEvents
       let bt := buttonPhase cfg st.activeButtons curButtons ax.1
       let ht := hatPhase cfg st.activeHats curHats bt.1
       (⟨curAxes, curButtons, curHats, ht.1⟩, ax.2 ++ bt.2 ++ ht.2)) := by
  rcases h with h | ⟨h1, h2⟩
  · simp [testGamepad, h]
  · simp [testGamepad, h1, h2]

/-! ## Event membership during a tick -/

theorem axisDown_mem_map {l : List (Nat × AxisDir)} {i : Nat} {d : AxisDir} :
    Ev.axisDown i d ∈ l.map (fun a => Ev.axisDown a.1 a.2) ↔ (i, d) ∈ l := by
  rw [List.mem_map]
  constructor
  · rintro ⟨a, ha, heq⟩
    obtain ⟨a1, a2⟩ := a
    simp only [Ev.axisDown.injEq] at heq
    obtain ⟨rfl, rfl⟩ := heq
    exact ha
  · intro hm
    exact ⟨(i, d), hm, rfl⟩

theorem axisUp_mem_map {l : List (Nat × AxisDir)} {i : Nat} {d : AxisDir} :
    Ev.axisUp i d ∈ l.map (fun a => Ev.axisUp a.1 a.2) ↔ (i, d) ∈ l := by
  rw [List.mem_map]
  constructor
  · rintro ⟨a, ha, heq⟩
    obtain ⟨a1, a2⟩ := a
    simp only [Ev.axisUp.injEq] at heq
    obtain ⟨rfl, rfl⟩ := heq
    exact ha
  · intro hm
    exact ⟨(i, d), hm, rfl⟩

theorem hatDown_mem_map {l : List (Nat × Nat)} {i d : Nat} :
    Ev.hatDown i d ∈ l.map (fun a => Ev.hatDown a.1 a.2) ↔ (i, d) ∈ l := by
  rw [List.mem_map]
  constructor
  · rintro ⟨a, ha, heq⟩
    obtain ⟨a1, a2⟩ := a
    simp only [Ev.hatDown.injEq] at heq
    obtain ⟨rfl, rfl⟩ := heq
    exact ha
  · intro hm
    exact ⟨(i, d), hm, rfl⟩

theorem hatUp_mem_map {l : List (Nat × Nat)} {i d : Nat} :
    Ev.hatUp i d ∈ l.map (fun a => Ev.hatUp a.1 a.2) ↔ (i, d) ∈ l := by
  rw [List.mem_map]
  constructor
  · rintro ⟨a, ha, heq⟩
    obtain ⟨a1, a2⟩ := a
    simp only [Ev.hatUp.injEq] at heq
    obtain ⟨rfl, rfl⟩ := heq
    exact ha
  · intro hm
    exact ⟨(i, d), hm, rfl⟩

theorem axisDown_mem_events (cfg : TickCfg) (st : CtrlState) (pad : Option Pad)
    (i : Nat) (d : AxisDir) :
    Ev.axisDown i d ∈ (testGamepad cfg st pad).2 ↔
      gateAxes cfg ∧ (i, d) ∈ activeGamepadAxes cfg.center cfg.threshold pad ∧
        (i, d) ∉ st.activeAxes := by
  cases hIF : cfg.ignoreFocus with
  | true =>
    rw [testGamepad_full cfg st pad (Or.inl hIF)]
    simp [gateAxes, hIF, axisPhase, buttonPhase, hatPhase, axisDown_mem_map, mem_listDiff,
      List.mem_map]
  | false =>
    cases hF1 : cfg.focus1 with
    | false =>
      rw [testGamepad_noFocus cfg st pad hIF hF1]
      simp [gateAxes, hIF, hF1]
    | true =>
      cases hF2 : cfg.focus2 with
      | false =>
        rw [testGamepad_axesOnly cfg st pad hIF hF1 hF2]
        simp [gateAxes, hF1, axisPhase, axisDown_mem_map, mem_listDiff, List.mem_map]
      | true =>
        rw [testGamepad_full cfg st pad (Or.inr ⟨hF1, hF2⟩)]
        simp [gateAxes, hF1, axisPhase, buttonPhase, hatPhase, axisDown_mem_map,
          mem_listDiff, List.mem_map]

theorem axisUp_mem_events (cfg : TickCfg) (st : CtrlState) (pad : Option Pad)
    (i : Nat) (d : AxisDir) :
    Ev.axisUp i d ∈ (testGamepad cfg st pad).2 ↔
      gateAxes cfg ∧ (i, d) ∈ st.activeAxes ∧
        (i, d) ∉ activeGamepadAxes cfg.center cfg.threshold pad := by
  cases hIF : cfg.ignoreFocus with
  | true =>
    rw [testGamepad_full cfg st pad (Or.inl hIF)]
    simp [gateAxes, hIF, axisPhase, buttonPhase, hatPhase, axisUp_mem_map, mem_listDiff,
      List.mem_map]
  | false =>
    cases hF1 : cfg.focus1 with
    | false =>
      rw [testGamepad_noFocus cfg st pad hIF hF1]
      simp [gateAxes, hIF, hF1]
    | true =>
      cases hF2 : cfg.focus2 with
      | false =>
        rw [testGamepad_axesOnly cfg st pad hIF hF1 hF2]
        simp [gateAxes, hF1, axisPhase, axisUp_mem_map, mem_listDiff, List.mem_map]
      | true =>
        rw [testGamepad_full cfg st pad (Or.inr ⟨hF1, hF2⟩)]
        simp [gateAxes, hF1, axisPhase, buttonPhase, hatPhase, axisUp_mem_map,
          mem_listDiff, List.mem_map]

theorem buttonDown_mem_events (cfg : TickCfg) (st : CtrlState) (pad : Option Pad) (b : Nat) :
    Ev.buttonDown b ∈ (testGamepad cfg st pad).2 ↔
      gateButtons cfg ∧ b ∈ activeGamepadButtons pad ∧ b ∉ st.activeButtons := by
  cases hIF : cfg.ignoreFocus with
  | true =>
    rw [testGamepad_full cfg st pad (Or.inl hIF)]
    simp [gateButtons, hIF, axisPhase, buttonPhase, hatPhase, mem_listDiff, List.mem_map]
  | false =>
    cases hF1 : cfg.focus1 with
    | false =>
      rw [testGamepad_noFocus cfg st pad hIF hF1]
      simp [gateButtons, hIF, hF1]
    | true =>
      cases hF2 : cfg.focus2 with
      | false =>
        rw [testGamepad_axesOnly cfg st pad hIF hF1 hF2]
        simp [gateButtons, hIF, hF2, axisPhase, List.mem_map]
      | true =>
        rw [testGamepad_full cfg st pad (Or.inr ⟨hF1, hF2⟩)]
        simp [gateButtons, hF1, hF2, axisPhase, buttonPhase, hatPhase, mem_listDiff,
          List.mem_map]

theorem buttonUp_mem_events (cfg : TickCfg) (st : CtrlState) (pad : Option Pad) (b : Nat) :
    Ev.buttonUp b ∈ (testGamepad cfg st pad).2 ↔
      gateButtons cfg ∧ b ∈ st.activeButtons ∧ b ∉ activeGamepadButtons pad := by
  cases hIF : cfg.ignoreFocus with
  | true =>
    rw [testGamepad_full cfg st pad (Or.inl hIF)]
    simp [gateButtons, hIF, axisPhase, buttonPhase, hatPhase, mem_listDiff, List.mem_map]
  | false =>
    cases hF1 : cfg.focus1 with
    | false =>
      rw [testGamepad_noFocus cfg st pad hIF hF1]
      simp [gateButtons, hIF, hF1]
    | true =>
      cases hF2 : cfg.focus2 with
      | false =>
        rw [testGamepad_axesOnly cfg st pad hIF hF1 hF2]
        simp [gateButtons, hIF, hF2, axisPhase, List.mem_map]
      | true =>
        rw [testGamepad_full cfg st pad (Or.inr ⟨hF1, hF2⟩)]
        simp [gateButtons, hF1, hF2, axisPhase, buttonPhase, hatPhase, mem_listDiff,
          List.mem_map]

theorem hatDown_mem_events (cfg : TickCfg) (st : CtrlState) (pad : Option Pad) (h d : Nat) :
    Ev.hatDown h d ∈ (testGamepad cfg st pad).2 ↔
      gateButtons cfg ∧ (h, d) ∈ activeGamepadHats pad ∧ (h, d) ∉ st.activeHats := by
  cases hIF : cfg.ignoreFocus with
  | true =>
    rw [testGamepad_full cfg st pad (Or.inl hIF)]
    simp [gateButtons, hIF, axisPhase, buttonPhase, hatPhase, hatDown_mem_map, mem_listDiff,
      List.mem_map]
  | false =>
    cases hF1 : cfg.focus1 with
    | false =>
      rw [testGamepad_noFocus cfg st pad hIF hF1]
      simp [gateButtons, hIF, hF1]
    | true =>
      cases hF2 : cfg.focus2 with
      | false =>
        rw [testGamepad_axesOnly cfg st pad hIF hF1 hF2]
        simp [gateButtons, hIF, hF2, axisPhase, List.mem_map]
      | true =>
        rw [testGamepad_full cfg st pad (Or.inr ⟨hF1, hF2⟩)]
        simp [gateButtons, hF1, hF2, axisPhase, buttonPhase, hatPhase, hatDown_mem_map,
          mem_listDiff, List.mem_map]

theorem hatUp_mem_events (cfg : TickCfg) (st : CtrlState) (pad : Option Pad) (h d : Nat) :
    Ev.hatUp h d ∈ (testGamepad cfg st pad).2 ↔
      gateButtons cfg ∧ (h, d) ∈ st.activeHats ∧ (h, d) ∉ activeGamepadHats pad := by
  cases hIF : cfg.ignoreFocus with
  | true =>
    rw [testGamepad_full cfg st pad (Or.inl hIF)]
    simp [gateButtons, hIF, axisPhase, buttonPhase, hatPhase, hatUp_mem_map, mem_listDiff,
      List.mem_map]
  | false =>
    cases hF1 : cfg.focus1 with
    | false =>
      rw [testGamepad_noFocus cfg st pad hIF hF1]
      simp [gateButtons, hIF, hF1]
    | true =>
      cases hF2 : cfg.focus2 with
      | false =>
        rw [testGamepad_axesOnly cfg st pad hIF hF1 hF2]
        simp [gateButtons, hIF, hF2, axisPhase, List.mem_map]
      | true =>
        rw [testGamepad_full cfg st pad (Or.inr ⟨hF1, hF2⟩)]
        simp [gateButtons, hF1, hF2, axisPhase, buttonPhase, hatPhase, hatUp_mem_map,
          mem_listDiff, List.mem_map]

theorem testGamepad_state_sets (cfg : TickCfg) (st : CtrlState) (pad : Option Pad) :
    (testGamepad cfg st pad).1.activeAxes = activeGamepadAxes cfg.center cfg.threshold pad ∧
    (testGamepad cfg st pad).1.activeButtons = activeGamepadButtons pad ∧
    (testGamepad cfg st pad).1.activeHats = activeGamepadHats pad := by
  rw [testGamepad]
  split_ifs <;> exact ⟨rfl, rfl, rfl⟩

theorem testGamepad_pending_noFocus (cfg : TickCfg) (st : CtrlState) (pad : Option Pad)
    (h1 : cfg.ignoreFocus = false) (h2 : cfg.focus1 = false) :
    (testGamepad cfg st pad).1.pendingEvents = st.pendingEvents := by
  rw [testGamepad_noFocus cfg st pad h1 h2]

theorem testGamepad_pending_full (cfg : TickCfg) (st : CtrlState) (pad : Option Pad)
    (h : cfg.ignoreFocus = true ∨ (cfg.focus1 = true ∧ cfg.focus2 = true)) :
    (testGamepad cfg st pad).1.pendingEvents =
      (hatPhase cfg st.activeHats (activeGamepadHats pad)
        (buttonPhase cfg st.activeButtons (activeGamepadButtons pad)
          (axisPhase cfg st.activeAxes (activeGamepadAxes cfg.center cfg.threshold pad)
            st.pendingEvents).1).1).1 := by
  rw [testGamepad_full cfg st pad h]

theorem testGamepad_events_full (cfg : TickCfg) (st : CtrlState) (pad : Option Pad)
    (h : cfg.ignoreFocus = true ∨ (cfg.focus1 = true ∧ cfg.focus2 = true)) :
    (testGamepad cfg st pad).2 =
      (axisPhase cfg st.activeAxes (activeGamepadAxes cfg.center cfg.threshold pad)
        st.pendingEvents).2 ++
      (buttonPhase cfg st.activeButtons (activeGamepadButtons pad)
        (axisPhase cfg st.activeAxes (activeGamepadAxes cfg.center cfg.threshold pad)
          st.pendingEvents).1).2 ++
      (hatPhase cfg st.activeHats (activeGamepadHats pad)
        (buttonPhase cfg st.activeButtons (activeGamepadButtons pad)
          (axisPhase cfg st.activeAxes (activeGamepadAxes cfg.center cfg.threshold pad)
            st.pendingEvents).1).1).2 := by
  rw [testGamepad_full cfg st pad h]

theorem axisDown_injective :
    Function.Injective (fun a : Nat × AxisDir => Ev.axisDown a.1 a.2) := by
  rintro ⟨a1, a2⟩ ⟨b1, b2⟩ h
  simp only [Ev.axisDown.injEq] at h
  simp [Prod.ext_iff, h.1, h.2]

theorem axisUp_injective :
    Function.Injective (fun a : Nat × AxisDir => Ev.axisUp a.1 a.2) := by
  rintro ⟨a1, a2⟩ ⟨b1, b2⟩ h
  simp only [Ev.axisUp.injEq] at h
  simp [Prod.ext_iff, h.1, h.2]

theorem count_axisPhase_down (cfg : TickCfg) (oldAxes curAxes : List (Nat × AxisDir))
    (pending : Finset Int) (i : Nat) (d : AxisDir)
    (hnd : (listDiff curAxes oldAxes).Nodup) :
    (axisPhase cfg oldAxes curAxes pending).2.count (Ev.axisDown i d) =
      if (i, d) ∈ listDiff curAxes oldAxes then 1 else 0 := by
  have hup0 : List.count (Ev.axisDown i d)
      ((listDiff oldAxes curAxes).map (fun a => Ev.axisUp a.1 a.2)) = 0 := by
    rw [List.count_eq_zero]
    simp [List.mem_map]
  rw [axisPhase, List.count_append, hup0, Nat.add_zero]
  by_cases hm : (i, d) ∈ listDiff curAxes oldAxes
  · rw [if_pos hm]
    exact List.count_eq_one_of_mem (List.Nodup.map axisDown_injective hnd)
      (axisDown_mem_map.mpr hm)
  · rw [if_neg hm, List.count_eq_zero]
    intro habs
    exact hm (axisDown_mem_map.mp habs)

theorem count_axisPhase_up (cfg : TickCfg) (oldAxes curAxes : List (Nat × AxisDir))
    (pending : Finset Int) (i : Nat) (d : AxisDir)
    (hnd : (listDiff oldAxes curAxes).Nodup) :
    (axisPhase cfg oldAxes curAxes pending).2.count (Ev.axisUp i d) =
      if (i, d) ∈ listDiff oldAxes curAxes then 1 else 0 := by
  have hdn0 : List.count (Ev.axisUp i d)
      ((listDiff curAxes oldAxes).map (fun a => Ev.axisDown a.1 a.2)) = 0 := by
    rw [List.count_eq_zero]
    simp [List.mem_map]
  rw [axisPhase, List.count_append, hdn0, Nat.zero_add]
  by_cases hm : (i, d) ∈ listDiff oldAxes curAxes
  · rw [if_pos hm]
    exact List.count_eq_one_of_mem (List.Nodup.map axisUp_injective hnd)
      (axisUp_mem_map.mpr hm)
  · rw [if_neg hm, List.count_eq_zero]
    intro habs
    exact hm (axisUp_mem_map.mp habs)

theorem count_buttonPhase_axis_ev (cfg : TickCfg) (oldB curB : List Nat)
    (pending : Finset Int) (e : Ev) (hd : ∀ b, e ≠ Ev.buttonDown b)
    (hu : ∀ b, e ≠ Ev.buttonUp b) :
    (buttonPhase cfg oldB curB pending).2.count e = 0 := by
  rw [buttonPhase, List.count_append]
  have h1 : ((listDiff curB oldB).map Ev.buttonDown).count e = 0 := by
    rw [List.count_eq_zero]
    intro habs
    rcases List.mem_map.mp habs with ⟨b, _, hb⟩
    exact hd b hb.symm
  have h2 : ((listDiff oldB curB).map Ev.buttonUp).count e = 0 := by
    rw [List.count_eq_zero]
    intro habs
    rcases List.mem_map.mp habs with ⟨b, _, hb⟩
    exact hu b hb.symm
  rw [h1, h2]

theorem count_hatPhase_axis_ev (cfg : TickCfg) (oldH curH : List (Nat × Nat))
    (pending : Finset Int) (e : Ev) (hd : ∀ h d, e ≠ Ev.hatDown h d)
    (hu : ∀ h d, e ≠ Ev.hatUp h d) :
    (hatPhase cfg oldH curH pending).2.count e = 0 := by
  rw [hatPhase, List.count_append]
  have h1 : ((listDiff curH oldH).map (fun h => Ev.hatDown h.1 h.2)).count e = 0 := by
    rw [List.count_eq_zero]
    intro habs
    rcases List.mem_map.mp habs with ⟨b, _, hb⟩
    exact hd b.1 b.2 hb.symm
  have h2 : ((listDiff oldH curH).map (fun h => Ev.hatUp h.1 h.2)).count e = 0 := by
    rw [List.count_eq_zero]
    intro habs
    rcases List.mem_map.mp habs with ⟨b, _, hb⟩
    exact hu b.1 b.2 hb.symm
  rw [h1, h2]

theorem count_axisDown_events (cfg : TickCfg) (st : CtrlState) (pad : Option Pad)
    (i : Nat) (d : AxisDir) :
    (testGamepad cfg st pad).2.count (Ev.axisDown i d) =
      if gateAxes cfg ∧
          (i, d) ∈ listDiff (activeGamepadAxes cfg.center cfg.threshold pad) st.activeAxes
        then 1 else 0 := by
  have hnd : (listDiff (activeGamepadAxes cfg.center cfg.threshold pad) st.activeAxes).Nodup :=
    listDiff_nodup _ (nodup_activeGamepadAxes cfg.center cfg.threshold pad)
  cases hIF : cfg.ignoreFocus with
  | true =>
    have hg : gateAxes cfg := Or.inl hIF
    rw [testGamepad_events_full cfg st pad (Or.inl hIF),
      List.count_append, List.count_append,
      count_axisPhase_down cfg st.activeAxes _ st.pendingEvents i d hnd,
      count_buttonPhase_axis_ev _ _ _ _ _ (by intro b h; cases h) (by intro b h; cases h),
      count_hatPhase_axis_ev _ _ _ _ _ (by intro h d' h'; cases h') (by intro h d' h'; cases h')]
    simp [hg]
  | false =>
    cases hF1 : cfg.focus1 with
    | false =>
      rw [if_neg (by simp [gateAxes, hIF, hF1]), testGamepad_noFocus cfg st pad hIF hF1]
      rfl
    | true =>
      have hg : gateAxes cfg := Or.inr hF1
      cases hF2 : cfg.focus2 with
      | false =>
        rw [testGamepad_axesOnly cfg st pad hIF hF1 hF2]
        have hev : ((⟨activeGamepadAxes cfg.center cfg.threshold pad, activeGamepadButtons pad,
            activeGamepadHats pad,
            (axisPhase cfg st.activeAxes (activeGamepadAxes cfg.center cfg.threshold pad)
              st.pendingEvents).1⟩ : CtrlState),
            (axisPhase cfg st.activeAxes (activeGamepadAxes cfg.center cfg.threshold pad)
              st.pendingEvents).2).2 =
          (axisPhase cfg st.activeAxes (activeGamepadAxes cfg.center cfg.threshold pad)
            st.pendingEvents).2 := rfl
        rw [hev, count_axisPhase_down cfg st.activeAxes _ st.pendingEvents i d hnd]
        simp [hg]
      | true =>
        rw [testGamepad_events_full cfg st pad (Or.inr ⟨hF1, hF2⟩),
          List.count_append, List.count_append,
          count_axisPhase_down cfg st.activeAxes _ st.pendingEvents i d hnd,
          count_buttonPhase_axis_ev _ _ _ _ _ (by intro b h; cases h) (by intro b h; cases h),
          count_hatPhase_axis_ev _ _ _ _ _ (by intro h d' h'; cases h')
            (by intro h d' h'; cases h')]
        simp [hg]

theorem count_axisUp_events (cfg : TickCfg) (st : CtrlState) (pad : Option Pad)
    (i : Nat) (d : AxisDir) (hndold : st.activeAxes.Nodup) :
    (testGamepad cfg st pad).2.count (Ev.axisUp i d) =
      if gateAxes cfg ∧
          (i, d) ∈ listDiff st.activeAxes (activeGamepadAxes cfg.center cfg.threshold pad)
        then 1 else 0 := by
  have hnd : (listDiff st.activeAxes (activeGamepadAxes cfg.center cfg.threshold pad)).Nodup :=
    listDiff_nodup _ hndold
  cases hIF : cfg.ignoreFocus with
  | true =>
    have hg : gateAxes cfg := Or.inl hIF
    rw [testGamepad_events_full cfg st pad (Or.inl hIF),
      List.count_append, List.count_append,
      count_axisPhase_up cfg st.activeAxes _ st.pendingEvents i d hnd,
      count_buttonPhase_axis_ev _ _ _ _ _ (by intro b h; cases h) (by intro b h; cases h),
      count_hatPhase_axis_ev _ _ _ _ _ (by intro h d' h'; cases h') (by intro h d' h'; cases h')]
    simp [hg]
  | false =>
    cases hF1 : cfg.focus1 with
    | false =>
      rw [if_neg (by simp [gateAxes, hIF, hF1]), testGamepad_noFocus cfg st pad hIF hF1]
      rfl
    | true =>
      have hg : gateAxes cfg := Or.inr hF1
      cases hF2 : cfg.focus2 with
      | false =>
        rw [testGamepad_axesOnly cfg st pad hIF hF1 hF2]
        have hev : ((⟨activeGamepadAxes cfg.center cfg.threshold pad, activeGamepadButtons pad,
            activeGamepadHats pad,
            (axisPhase cfg st.activeAxes (activeGamepadAxes cfg.center cfg.threshold pad)
              st.pendingEvents).1⟩ : CtrlState),
            (axisPhase cfg st.activeAxes (activeGamepadAxes cfg.center cfg.threshold pad)
              st.pendingEvents).2).2 =
          (axisPhase cfg st.activeAxes (activeGamepadAxes cfg.center cfg.threshold pad)
            st.pendingEvents).2 := rfl
        rw [hev, count_axisPhase_up cfg st.activeAxes _ st.pendingEvents i d hnd]
        simp [hg]
      | true =>
        rw [testGamepad_events_full cfg st pad (Or.inr ⟨hF1, hF2⟩),
          List.count_append, List.count_append,
          count_axisPhase_up cfg st.activeAxes _ st.pendingEvents i d hnd,
          count_buttonPhase_axis_ev _ _ _ _ _ (by intro b h; cases h) (by intro b h; cases h),
          count_hatPhase_axis_ev _ _ _ _ _ (by intro h d' h'; cases h')
            (by intro h d' h'; cases h')]
        simp [hg]

/-! ## Claim C5: luminance level round-trip -/

/-- C5: for every level in `[0, 10]`, `setLuminanceLevel(level)` stores the
canonical raw value `0x16 + table[level-1]` (`0x16` for level 0) and the level
recomputed from it by `setLuminanceValue` is the same level: the two directions
are mutual inverses up to table resolution, and level→value is a fixed function
of the level alone.  The table is any strictly ascending positive table with
`table[9] ≤ 0xE9` (the shipped table satisfies this). -/
theorem c5_luminance_roundtrip (lux : Nat → Nat)
    (hmono : ∀ j < 10, ∀ i < j, lux i < lux j)
    (hpos : 0 < lux 0) (hbound : lux 9 ≤ 0xE9) :
    ∀ level : Int, 0 ≤ level → level ≤ 10 →
      (setLuminanceLevel lux level).2 = level.toNat ∧
      (setLuminanceLevel lux level).1 =
        0x16 + (if 0 < level then lux (level.toNat - 1) else 0) := by
  intro level h0 h10
  have hclamp : clamp level 0 10 = level := by
    rw [clamp, if_neg (by omega), if_neg (by omega)]
  by_cases hp : 0 < level
  · have hn1 : 1 ≤ level.toNat := by omega
    have hn10 : level.toNat ≤ 10 := by omega
    have hlub : lux (level.toNat - 1) ≤ 0xE9 := by
      rcases Nat.lt_or_ge (level.toNat - 1) 9 with h | h
      · exact le_of_lt (lt_of_lt_of_le (hmono 9 (by omega) _ h) hbound)
      · have h9 : level.toNat - 1 = 9 := by omega
        rw [h9]
        exact hbound
    have hvlt : 0x16 + lux (level.toNat - 1) < 256 := by omega
    have hscan : luxLevelScan lux (lux (level.toNat - 1)) = level.toNat := by
      refine luxLevelScan_eq lux _ _ hn10 ?_ ?_
      · intro j hj
        rcases Nat.lt_or_ge j (level.toNat - 1) with h | h
        · exact fun _ => absurd (hmono (level.toNat - 1) (by omega) j h) (by omega)
        · have hjl : j = level.toNat - 1 := by omega
          rw [hjl]
          omega
      · intro h10'
        exact hmono level.toNat h10' (level.toNat - 1) (by omega)
    constructor
    · simp only [setLuminanceLevel, hclamp, if_pos hp, setLuminanceValue]
      rw [Nat.mod_eq_of_lt hvlt]
      have hsub : 0x16 + lux (level.toNat - 1) - 0x16 = lux (level.toNat - 1) := by omega
      rw [hsub, hscan]
    · simp only [setLuminanceLevel, hclamp, if_pos hp, setLuminanceValue]
      rw [Nat.mod_eq_of_lt hvlt]
  · have hlz : level = 0 := by omega
    subst hlz
    have hscan : luxLevelScan lux 0 = 0 := by
      refine luxLevelScan_eq lux 0 0 (by omega) (by omega) ?_
      intro _
      exact hpos
    constructor
    · simp only [setLuminanceLevel, hclamp, setLuminanceValue]
      norm_num
      exact hscan
    · simp only [setLuminanceLevel, hclamp, setLuminanceValue]
      norm_num

/-- C5 witness: the shipped table at level 7. -/
theorem c5_witness :
    (∀ j < 10, ∀ i < j, GBA_LUX_LEVELS i < GBA_LUX_LEVELS j) ∧ 0 < GBA_LUX_LEVELS 0 ∧
      GBA_LUX_LEVELS 9 ≤ 0xE9 ∧ (0 : Int) ≤ 7 ∧ (7 : Int) ≤ 10 ∧
      ((setLuminanceLevel GBA_LUX_LEVELS 7).2 = (7 : Int).toNat ∧
        (setLuminanceLevel GBA_LUX_LEVELS 7).1 =
          0x16 + (if (0 : Int) < 7 then GBA_LUX_LEVELS ((7 : Int).toNat - 1) else 0)) :=
  ⟨by decide, by decide, by decide, by decide, by decide,
    c5_luminance_roundtrip GBA_LUX_LEVELS (by decide) (by decide) (by decide) 7
      (by decide) (by decide)⟩

/-! ## Claim C6: player-slot pool -/

/-- C6: claiming returns the first free slot (hence successive claims return
distinct identifiers), claiming succeeds whenever a slot is free and is fatal
(`none`) exactly when all `MAX_GBAS` slots are taken, and freeing a slot clears
precisely its bit, making the identifier claimable again (in particular from a
full pool, freeing `p` makes the next claim return exactly `p`). -/
theorem c6_player_slot_pool :
    (∀ claimed : Nat, claimed < 16 →
      OptionForall (claimPlayer claimed) (fun pr =>
        isFirstFree claimed pr.1 ∧ pr.2 = claimed ||| (1 <<< pr.1)) ∧
      ((∃ i < MAX_GBAS, claimed &&& (1 <<< i) = 0) → (claimPlayer claimed).isSome = true) ∧
      ((∀ i < MAX_GBAS, claimed &&& (1 <<< i) ≠ 0) → claimPlayer claimed = none) ∧
      OptionForall (claimPlayer claimed) (fun pr =>
        OptionForall (claimPlayer pr.2) (fun qr => qr.1 ≠ pr.1)) ∧
      (∀ p < MAX_GBAS,
        (freePlayer claimed p).testBit p = false ∧
        (∀ q < MAX_GBAS, q ≠ p → (freePlayer claimed p).testBit q = claimed.testBit q) ∧
        (claimPlayer (freePlayer claimed p)).isSome = true)) ∧
    (∀ p < MAX_GBAS, claimPlayer (freePlayer 15 p) = some (p, 15)) := by
  constructor
  · intro claimed hc
    interval_cases claimed <;> decide
  · decide

/-- C6 witness: the pool behaviour at the concrete bitmask 5 (`0b0101`). -/
theorem c6_witness :
    (5 : Nat) < 16 ∧
      (OptionForall (claimPlayer 5) (fun pr =>
        isFirstFree 5 pr.1 ∧ pr.2 = 5 ||| (1 <<< pr.1)) ∧
      ((∃ i < MAX_GBAS, 5 &&& (1 <<< i) = 0) → (claimPlayer 5).isSome = true) ∧
      ((∀ i < MAX_GBAS, 5 &&& (1 <<< i) ≠ 0) → claimPlayer 5 = none) ∧
      OptionForall (claimPlayer 5) (fun pr =>
        OptionForall (claimPlayer pr.2) (fun qr => qr.1 ≠ pr.1)) ∧
      (∀ p < MAX_GBAS,
        (freePlayer 5 p).testBit p = false ∧
        (∀ q < MAX_GBAS, q ≠ p → (freePlayer 5 p).testBit q = (5 : Nat).testBit q) ∧
        (claimPlayer (freePlayer 5 p)).isSome = true)) ∧
      (2 : Nat) < MAX_GBAS ∧ claimPlayer (freePlayer 15 2) = some (2, 15) :=
  ⟨by decide, c6_player_slot_pool.1 5 (by decide), by decide,
    c6_player_slot_pool.2 2 (by decide)⟩

/-! ## Claim C7: luminance sample callback -/

/-- C7 counterexample: after `setLuminanceValue(0)`, invoking the sample
callback and then `readLuminance` yields `0xFF`, not the raw value 0 that was
set — the callback inverts the stored value. -/
theorem c7_counterexample :
    ¬readLuminance (luxSample (setLuminanceValue GBA_LUX_LEVELS 0).1) = 0 := by
  decide

/-- C7 (amended): the sample callback returns the bitwise complement of the
last raw luminance value: after `setLuminanceValue(v)`, sampling and then
`readLuminance` yields `0xFF - v`. -/
theorem c7_lux_sample_complement (lux : Nat → Nat) (v : Nat) (h : v ≤ 255) :
    readLuminance (luxSample (setLuminanceValue lux v).1) = 0xFF - v := by
  simp only [setLuminanceValue, readLuminance, luxSample]
  rw [Nat.mod_eq_of_lt (by omega)]

/-- C7 witness at `v = 0x80`. -/
theorem c7_witness :
    (0x80 : Nat) ≤ 255 ∧
      readLuminance (luxSample (setLuminanceValue GBA_LUX_LEVELS 0x80).1) = 0x7F :=
  ⟨by decide, c7_lux_sample_complement GBA_LUX_LEVELS 0x80 (by decide)⟩

/-! ## Claim C8: configuration loading -/

/-- C8 counterexample: with bindings present in the store (`loaded = true`) but
no driver registered for the class, `loadConfiguration` returns `false` — so
the return value is not equivalent to "bindings were found". -/
theorem c8_counterexample : ¬(loadConfiguration true false).returned = true := by
  decide

/-- C8 (amended): `loadConfiguration` returns true iff bindings were found in
the store AND a driver is registered for the class; the built-in defaults are
applied exactly when a driver is registered and no bindings were found (so a
`false` return with a registered driver always applies defaults, and absence
of bindings is never an error). -/
theorem c8_load_returns_found_with_driver :
    ∀ loaded hasDriver : Bool,
      (loadConfiguration loaded hasDriver).returned = (loaded && hasDriver) ∧
      (loadConfiguration loaded hasDriver).defaultsApplied = (hasDriver && !loaded) := by
  decide

/-! ## Claim C10: raw keyboard filter key set -/

/-- C10: the raw keyboard filter enqueues a key event exactly for the ten
recognized virtual keys (arrows, Z, X, A, S, Return, Backspace); every other
virtual key translates to `Qt::Key_unknown` and enqueues nothing. -/
theorem c10_raw_keyboard_filter :
    ∀ (vk : Nat) (isBreakFlag : Bool),
      (vk ∈ recognizedVKeys →
        rawKeyboardEvent vk isBreakFlag = some (qtKeyFromVirtualKey vk, !isBreakFlag)) ∧
      (vk ∉ recognizedVKeys →
        qtKeyFromVirtualKey vk = Qt_Key_unknown ∧ rawKeyboardEvent vk isBreakFlag = none) := by
  intro vk isBrk
  constructor
  · intro h
    simp only [recognizedVKeys, List.mem_cons, List.not_mem_nil, or_false] at h
    rcases h with rfl | rfl | rfl | rfl | rfl | rfl | rfl | rfl | rfl | rfl <;>
      cases isBrk <;> decide
  · intro h
    simp only [recognizedVKeys, List.mem_cons, List.not_mem_nil, or_false] at h
    push_neg at h
    obtain ⟨g1, g2, g3, g4, g5, g6, g7, g8, g9, g10⟩ := h
    refine ⟨?_, ?_⟩
    · simp [qtKeyFromVirtualKey, g1, g2, g3, g4, g5, g6, g7, g8, g9, g10]
    · simp [rawKeyboardEvent, qtKeyFromVirtualKey, g1, g2, g3, g4, g5, g6, g7, g8, g9, g10]

/-- C10 witness: `Z` is recognized and enqueued; `0x42` (`B`) is not. -/
theorem c10_witness :
    ((0x5A : Nat) ∈ recognizedVKeys ∧
      rawKeyboardEvent 0x5A false = some (qtKeyFromVirtualKey 0x5A, true)) ∧
    ((0x42 : Nat) ∉ recognizedVKeys ∧
      (qtKeyFromVirtualKey 0x42 = Qt_Key_unknown ∧ rawKeyboardEvent 0x42 true = none)) :=
  ⟨⟨by decide, (c10_raw_keyboard_filter 0x5A false).1 (by decide)⟩,
   ⟨by decide, (c10_raw_keyboard_filter 0x42 true).2 (by decide)⟩⟩

/-! ## Claim C4: the two-point focus gate -/

/-- C4: when the `ignoreWindowFocus` override is unset and no widget has focus,
dispatch is skipped; the focus condition guards axes and buttons at two
independent points (if only the second check fails, the tick dispatches exactly
the axis transition events and nothing else), and hat dispatch has no gate of
its own — hat events occur exactly when the two prior checks passed. -/
theorem c4_two_focus_checks :
    ∀ (cfg : TickCfg) (st : CtrlState) (pad : Option Pad),
      (cfg.ignoreFocus = false → cfg.focus1 = false → (testGamepad cfg st pad).2 = []) ∧
      (cfg.ignoreFocus = false → cfg.focus1 = true → cfg.focus2 = false →
        (testGamepad cfg st pad).2 =
          (listDiff (activeGamepadAxes cfg.center cfg.threshold pad) st.activeAxes).map
            (fun a => Ev.axisDown a.1 a.2) ++
          (listDiff st.activeAxes (activeGamepadAxes cfg.center cfg.threshold pad)).map
            (fun a => Ev.axisUp a.1 a.2)) ∧
      (∀ h d : Nat,
        (Ev.hatDown h d ∈ (testGamepad cfg st pad).2 ↔
          gateButtons cfg ∧ (h, d) ∈ activeGamepadHats pad ∧ (h, d) ∉ st.activeHats) ∧
        (Ev.hatUp h d ∈ (testGamepad cfg st pad).2 ↔
          gateButtons cfg ∧ (h, d) ∈ st.activeHats ∧ (h, d) ∉ activeGamepadHats pad)) := by
  intro cfg st pad
  refine ⟨?_, ?_, ?_⟩
  · intro h1 h2
    rw [testGamepad_noFocus cfg st pad h1 h2]
  · intro h1 h2 h3
    rw [testGamepad_axesOnly cfg st pad h1 h2 h3]
    rfl
  · intro h d
    exact ⟨hatDown_mem_events cfg st pad h d, hatUp_mem_events cfg st pad h d⟩

/-- C4 witness: a fully unfocused tick dispatches nothing; with both checks
passing, a newly active hat direction is dispatched. -/
theorem c4_witness :
    (testGamepad { sampleCfg with focus1 := false, focus2 := false } emptyState none).2 = [] ∧
    (Ev.hatDown 0 1 ∈ (testGamepad sampleCfg emptyState (some ⟨[], [], [1]⟩)).2 ↔
      gateButtons sampleCfg ∧ (0, 1) ∈ activeGamepadHats (some ⟨[], [], [1]⟩) ∧
        (0, 1) ∉ emptyState.activeHats) :=
  ⟨(c4_two_focus_checks { sampleCfg with focus1 := false, focus2 := false }
      emptyState none).1 rfl rfl,
   ((c4_two_focus_checks sampleCfg emptyState (some ⟨[], [], [1]⟩)).2.2 0 1).1⟩

/-! ## Claim C9: unfocused ticks consume transitions -/

/-- C9: every call to `testGamepad` replaces the stored previous active sets
with the freshly computed ones, before the focus gate is evaluated; an
unfocused tick therefore dispatches nothing and leaves the pending set
untouched (so a pending mark whose release happens in such a tick survives it),
and a press consumed by an unfocused tick is never re-dispatched as a down
event once focus returns (nor is a consumed release re-dispatched as an up). -/
theorem c9_unfocused_tick_consumes :
    ∀ (cfg : TickCfg) (st : CtrlState) (pad : Option Pad),
      ((testGamepad cfg st pad).1.activeAxes = activeGamepadAxes cfg.center cfg.threshold pad ∧
       (testGamepad cfg st pad).1.activeButtons = activeGamepadButtons pad ∧
       (testGamepad cfg st pad).1.activeHats = activeGamepadHats pad) ∧
      (cfg.ignoreFocus = false → cfg.focus1 = false →
        (testGamepad cfg st pad).2 = [] ∧
        (testGamepad cfg st pad).1.pendingEvents = st.pendingEvents) ∧
      (∀ (cfg2 : TickCfg) (pad2 : Option Pad) (b : Nat),
        b ∈ activeGamepadButtons pad →
          Ev.buttonDown b ∉ (testGamepad cfg2 (testGamepad cfg st pad).1 pad2).2) ∧
      (∀ (cfg2 : TickCfg) (pad2 : Option Pad) (b : Nat),
        b ∉ activeGamepadButtons pad →
          Ev.buttonUp b ∉ (testGamepad cfg2 (testGamepad cfg st pad).1 pad2).2) ∧
      (∀ k : Int, cfg.ignoreFocus = false → cfg.focus1 = false →
        hasPendingEvent st.pendingEvents k →
          hasPendingEvent (testGamepad cfg st pad).1.pendingEvents k) := by
  intro cfg st pad
  refine ⟨testGamepad_state_sets cfg st pad, ?_, ?_, ?_, ?_⟩
  · intro h1 h2
    exact ⟨by rw [testGamepad_noFocus cfg st pad h1 h2],
      testGamepad_pending_noFocus cfg st pad h1 h2⟩
  · intro cfg2 pad2 b hb habs
    rw [buttonDown_mem_events] at habs
    rw [(testGamepad_state_sets cfg st pad).2.1] at habs
    exact habs.2.2 hb
  · intro cfg2 pad2 b hb habs
    rw [buttonUp_mem_events] at habs
    rw [(testGamepad_state_sets cfg st pad).2.1] at habs
    exact hb habs.2.1
  · intro k h1 h2 hk
    rw [testGamepad_pending_noFocus cfg st pad h1 h2]
    exact hk

/-- C9 witness: an unfocused tick that sees button 0 newly pressed dispatches
nothing, keeps the pending mark `3`, stores the new active set, and the next
focused tick does not re-dispatch the press. -/
theorem c9_witness :
    ((testGamepad { sampleCfg with focus1 := false, focus2 := false }
        ⟨[], [], [], {(3 : Int)}⟩ (some ⟨[true], [], []⟩)).2 = [] ∧
      (testGamepad { sampleCfg with focus1 := false, focus2 := false }
        ⟨[], [], [], {(3 : Int)}⟩ (some ⟨[true], [], []⟩)).1.pendingEvents = {(3 : Int)}) ∧
    Ev.buttonDown 0 ∉
      (testGamepad sampleCfg
        (testGamepad { sampleCfg with focus1 := false, focus2 := false }
          ⟨[], [], [], {(3 : Int)}⟩ (some ⟨[true], [], []⟩)).1 (some ⟨[true], [], []⟩)).2 ∧
    hasPendingEvent
      (testGamepad { sampleCfg with focus1 := false, focus2 := false }
        ⟨[], [], [], {(3 : Int)}⟩ (some ⟨[true], [], []⟩)).1.pendingEvents 3 :=
  ⟨(c9_unfocused_tick_consumes { sampleCfg with focus1 := false, focus2 := false }
      ⟨[], [], [], {(3 : Int)}⟩ (some ⟨[true], [], []⟩)).2.1 rfl rfl,
   (c9_unfocused_tick_consumes { sampleCfg with focus1 := false, focus2 := false }
      ⟨[], [], [], {(3 : Int)}⟩ (some ⟨[true], [], []⟩)).2.2.1 sampleCfg
      (some ⟨[true], [], []⟩) 0 (by decide),
   (c9_unfocused_tick_consumes { sampleCfg with focus1 := false, focus2 := false }
      ⟨[], [], [], {(3 : Int)}⟩ (some ⟨[true], [], []⟩)).2.2.2.2 3 rfl rfl (by decide)⟩

/-! ## Claim C3: releases are never suppressed -/

theorem gateAxes_of_gateButtons {cfg : TickCfg} (h : gateButtons cfg) : gateAxes cfg := by
  rcases h with h | ⟨h1, _⟩
  · exact Or.inl h
  · exact Or.inr h1

/-- C3 counterexample: in an unfocused tick (override unset, no widget focused)
button 0 leaves the active set, yet no up transition event is dispatched and
its pending mark is not cleared — so the claim fails as stated for unfocused
ticks. -/
theorem c3_counterexample :
    (0 : Nat) ∈ (⟨[], [0], [], {(0 : Int)}⟩ : CtrlState).activeButtons ∧
    (0 : Nat) ∉ activeGamepadButtons (some ⟨[], [], []⟩) ∧
    (testGamepad { sampleCfg with focus1 := false, focus2 := false }
      ⟨[], [0], [], {(0 : Int)}⟩ (some ⟨[], [], []⟩)).2 = [] ∧
    hasPendingEvent
      (testGamepad { sampleCfg with focus1 := false, focus2 := false }
        ⟨[], [0], [], {(0 : Int)}⟩ (some ⟨[], [], []⟩)).1.pendingEvents 0 := by
  exact ⟨by decide, by decide, by decide, by decide⟩

/-- C3 (amended): in a tick where the focus gate passes, every element
(button, axis-direction pair, or hat-direction pair) that leaves the active set
gets an up transition event dispatched — with no acceptance condition, unlike
downs — and its platform key is removed from the pending set; the key is still
absent at the end of the tick provided no simultaneously newly-active element
re-marks the same key (for a released hat, all its keys are absent
unconditionally, the hat up sub-step being the last). -/
theorem c3_up_transitions :
    ∀ (cfg : TickCfg) (st : CtrlState) (pad : Option Pad), gateButtons cfg →
      (∀ b ∈ st.activeButtons, b ∉ activeGamepadButtons pad →
        Ev.buttonUp b ∈ (testGamepad cfg st pad).2 ∧
        ((∀ h' ∈ activeGamepadHats pad, h' ∉ st.activeHats →
            ∀ i, (cfg.hatKeys h'.1 h'.2).testBit i = true → (i : Int) ≠ cfg.buttonKey b) →
          ¬hasPendingEvent (testGamepad cfg st pad).1.pendingEvents (cfg.buttonKey b))) ∧
      (∀ a ∈ st.activeAxes, a ∉ activeGamepadAxes cfg.center cfg.threshold pad →
        Ev.axisUp a.1 a.2 ∈ (testGamepad cfg st pad).2 ∧
        ((∀ b' ∈ activeGamepadButtons pad, b' ∉ st.activeButtons →
            cfg.buttonKey b' = cfg.axisKey a.1 a.2 → cfg.acceptButton b' = false) →
         (∀ h' ∈ activeGamepadHats pad, h' ∉ st.activeHats →
            ∀ i, (cfg.hatKeys h'.1 h'.2).testBit i = true → (i : Int) ≠ cfg.axisKey a.1 a.2) →
          ¬hasPendingEvent (testGamepad cfg st pad).1.pendingEvents (cfg.axisKey a.1 a.2))) ∧
      (∀ hh ∈ st.activeHats, hh ∉ activeGamepadHats pad →
        Ev.hatUp hh.1 hh.2 ∈ (testGamepad cfg st pad).2 ∧
        (∀ i, (cfg.hatKeys hh.1 hh.2).testBit i = true →
          ¬hasPendingEvent (testGamepad cfg st pad).1.pendingEvents (i : Int))) := by
  intro cfg st pad hg
  have hpend := testGamepad_pending_full cfg st pad hg
  refine ⟨?_, ?_, ?_⟩
  · intro b hbold hbcur
    refine ⟨(buttonUp_mem_events cfg st pad b).mpr ⟨hg, hbold, hbcur⟩, ?_⟩
    intro hnohat habs
    rw [hasPendingEvent, hpend, hatPhase] at habs
    have h4 : cfg.buttonKey b ∉
        (buttonPhase cfg st.activeButtons (activeGamepadButtons pad)
          (axisPhase cfg st.activeAxes (activeGamepadAxes cfg.center cfg.threshold pad)
            st.pendingEvents).1).1 := by
      rw [buttonPhase]
      intro h4'
      have := (mem_processUps cfg.buttonKey
        (listDiff st.activeButtons (activeGamepadButtons pad)) _ _).mp h4'
      exact this.2 b (mem_listDiff.mpr ⟨hbold, hbcur⟩) rfl
    have h5 : cfg.buttonKey b ∉
        processHatDowns cfg.hatKeys cfg.acceptHat
          (listDiff (activeGamepadHats pad) st.activeHats)
          (buttonPhase cfg st.activeButtons (activeGamepadButtons pad)
            (axisPhase cfg st.activeAxes (activeGamepadAxes cfg.center cfg.threshold pad)
              st.pendingEvents).1).1 := by
      refine notmem_processHatDowns_preserved _ _ _ _ _ ?_ h4
      intro h' hh' _ i hi
      have hm := mem_listDiff.mp hh'
      exact hnohat h' hm.1 hm.2 i hi
    exact notmem_processHatUps_preserved _ _ _ _ h5 habs
  · intro a haold hacur
    refine ⟨(axisUp_mem_events cfg st pad a.1 a.2).mpr
      ⟨gateAxes_of_gateButtons hg, by simpa using haold, by simpa using hacur⟩, ?_⟩
    intro hnobtn hnohat habs
    rw [hasPendingEvent, hpend, hatPhase] at habs
    have h2 : cfg.axisKey a.1 a.2 ∉
        (axisPhase cfg st.activeAxes (activeGamepadAxes cfg.center cfg.threshold pad)
          st.pendingEvents).1 := by
      rw [axisPhase]
      intro h2'
      have := (mem_processUps (fun x => cfg.axisKey x.1 x.2)
        (listDiff st.activeAxes (activeGamepadAxes cfg.center cfg.threshold pad)) _ _).mp h2'
      exact this.2 a (mem_listDiff.mpr ⟨haold, hacur⟩) rfl
    have h4 : cfg.axisKey a.1 a.2 ∉
        (buttonPhase cfg st.activeButtons (activeGamepadButtons pad)
          (axisPhase cfg st.activeAxes (activeGamepadAxes cfg.center cfg.threshold pad)
            st.pendingEvents).1).1 := by
      rw [buttonPhase]
      refine notmem_processUps_preserved _ _ _ _ ?_
      refine notmem_processDowns_preserved _ _ _ _ _ ?_ h2
      intro b' hb' hkb'
      have hm := mem_listDiff.mp hb'
      exact hnobtn b' hm.1 hm.2 hkb'
    have h5 : cfg.axisKey a.1 a.2 ∉
        processHatDowns cfg.hatKeys cfg.acceptHat
          (listDiff (activeGamepadHats pad) st.activeHats)
          (buttonPhase cfg st.activeButtons (activeGamepadButtons pad)
            (axisPhase cfg st.activeAxes (activeGamepadAxes cfg.center cfg.threshold pad)
              st.pendingEvents).1).1 := by
      refine notmem_processHatDowns_preserved _ _ _ _ _ ?_ h4
      intro h' hh' _ i hi
      have hm := mem_listDiff.mp hh'
      exact hnohat h' hm.1 hm.2 i hi
    exact notmem_processHatUps_preserved _ _ _ _ h5 habs
  · intro hh hhold hhcur
    refine ⟨(hatUp_mem_events cfg st pad hh.1 hh.2).mpr
      ⟨hg, by simpa using hhold, by simpa using hhcur⟩, ?_⟩
    intro i hi habs
    rw [hasPendingEvent, hpend, hatPhase] at habs
    have := (mem_processHatUps cfg.hatKeys
      (listDiff st.activeHats (activeGamepadHats pad)) _ _).mp habs
    exact this.2 hh (mem_listDiff.mpr ⟨hhold, hhcur⟩) i hi rfl

/-- C3 witness: a focused tick in which button 0 (with pending platform key 0)
is released dispatches its up event and clears the pending mark. -/
theorem c3_witness :
    gateButtons sampleCfg ∧
    (0 : Nat) ∈ (⟨[], [0], [], {(0 : Int)}⟩ : CtrlState).activeButtons ∧
    (0 : Nat) ∉ activeGamepadButtons (some ⟨[], [], []⟩) ∧
    Ev.buttonUp 0 ∈ (testGamepad sampleCfg ⟨[], [0], [], {(0 : Int)}⟩ (some ⟨[], [], []⟩)).2 ∧
    ¬hasPendingEvent
      (testGamepad sampleCfg ⟨[], [0], [], {(0 : Int)}⟩ (some ⟨[], [], []⟩)).1.pendingEvents
      (sampleCfg.buttonKey 0) :=
  have h := (c3_up_transitions sampleCfg ⟨[], [0], [], {(0 : Int)}⟩ (some ⟨[], [], []⟩)
    (by decide)).1 0 (by decide) (by decide)
  ⟨by decide, by decide, by decide, h.1,
   h.2 (fun h' hh' => absurd hh' (List.not_mem_nil h'))⟩

/-! ## Claim C1: pollEvents and pending suppression -/

/-- C1: the `pollEvents` bitmask is the union of the mapped button/axis/hat
bitmasks of all gamepad-capable connected devices with every pending logical
button cleared; a button down transition accepted in a tick puts its platform
key into the pending set, so `pollEvents` excludes that bit in the same tick
(whatever the devices report); after the release transition the key is pending
no more, so the bit is again exactly the union bit — eligible on the next
press.  The scenario hypotheses say the tick reaches dispatch, every accepted
down mapping to the key is the only same-key transition, and hats are
unchanged. -/
theorem c1_poll_suppression :
    (∀ (pads : List PadMasks) (pending : Finset Int) (i : Nat), i < GBA_KEY_MAX →
      ((pollEvents pads pending).testBit i = true ↔
        (∃ p ∈ pads, ((p.keys ||| p.axes ||| p.hats).testBit i = true)) ∧
          ¬hasPendingEvent pending (i : Int))) ∧
    (∀ (cfg : TickCfg) (st : CtrlState) (pad : Option Pad) (b : Nat) (k : Int),
      gateButtons cfg → b ∈ activeGamepadButtons pad → b ∉ st.activeButtons →
      cfg.buttonKey b = k → 0 ≤ k → k.toNat < GBA_KEY_MAX →
      (∀ b' ∈ activeGamepadButtons pad, cfg.buttonKey b' = k → cfg.acceptButton b' = true) →
      (∀ b' ∈ st.activeButtons, b' ∉ activeGamepadButtons pad → cfg.buttonKey b' ≠ k) →
      st.activeHats = activeGamepadHats pad →
      hasPendingEvent (testGamepad cfg st pad).1.pendingEvents k ∧
      ∀ pads : List PadMasks,
        (pollEvents pads (testGamepad cfg st pad).1.pendingEvents).testBit k.toNat = false) ∧
    (∀ (cfg : TickCfg) (st : CtrlState) (pad : Option Pad) (b : Nat) (k : Int),
      gateButtons cfg → b ∈ st.activeButtons → b ∉ activeGamepadButtons pad →
      cfg.buttonKey b = k → st.activeHats = activeGamepadHats pad →
      ¬hasPendingEvent (testGamepad cfg st pad).1.pendingEvents k ∧
      (0 ≤ k → k.toNat < GBA_KEY_MAX →
        ∀ pads : List PadMasks,
          ((pollEvents pads (testGamepad cfg st pad).1.pendingEvents).testBit k.toNat = true ↔
            ∃ p ∈ pads, ((p.keys ||| p.axes ||| p.hats).testBit k.toNat = true)))) := by
  refine ⟨pollEvents_testBit, ?_, ?_⟩
  · intro cfg st pad b k hg hb hbold hkey hk0 hklt hacc hup hhat
    have hpend' : (testGamepad cfg st pad).1.pendingEvents =
        (buttonPhase cfg st.activeButtons (activeGamepadButtons pad)
          (axisPhase cfg st.activeAxes (activeGamepadAxes cfg.center cfg.threshold pad)
            st.pendingEvents).1).1 := by
      rw [testGamepad_pending_full cfg st pad hg, hhat, hatPhase]
      simp only [listDiff_self]
      rfl
    have hkin : k ∈ (testGamepad cfg st pad).1.pendingEvents := by
      rw [hpend', buttonPhase]
      refine (mem_processUps cfg.buttonKey
        (listDiff st.activeButtons (activeGamepadButtons pad)) _ k).mpr ⟨?_, ?_⟩
      · refine mem_processDowns_of_accept cfg.buttonKey cfg.acceptButton _ _ k b
          (mem_listDiff.mpr ⟨hb, hbold⟩) hkey ?_
        intro a ha hka
        exact hacc a (mem_listDiff.mp ha).1 hka
      · intro a ha
        have hm := mem_listDiff.mp ha
        exact hup a hm.1 hm.2
    refine ⟨hkin, ?_⟩
    intro pads
    rcases Bool.eq_false_or_eq_true
      ((pollEvents pads (testGamepad cfg st pad).1.pendingEvents).testBit k.toNat) with ht | hf
    · exfalso
      have := (pollEvents_testBit pads _ k.toNat hklt).mp ht
      rw [Int.toNat_of_nonneg hk0] at this
      exact this.2 hkin
    · exact hf
  · intro cfg st pad b k hg hbold hb hkey hhat
    have hpend' : (testGamepad cfg st pad).1.pendingEvents =
        (buttonPhase cfg st.activeButtons (activeGamepadButtons pad)
          (axisPhase cfg st.activeAxes (activeGamepadAxes cfg.center cfg.threshold pad)
            st.pendingEvents).1).1 := by
      rw [testGamepad_pending_full cfg st pad hg, hhat, hatPhase]
      simp only [listDiff_self]
      rfl
    have hkout : k ∉ (testGamepad cfg st pad).1.pendingEvents := by
      rw [hpend', buttonPhase]
      intro habs
      have := (mem_processUps cfg.buttonKey
        (listDiff st.activeButtons (activeGamepadButtons pad)) _ k).mp habs
      exact this.2 b (mem_listDiff.mpr ⟨hbold, hb⟩) hkey
    refine ⟨hkout, ?_⟩
    intro h0 hlt pads
    have hiff := pollEvents_testBit pads (testGamepad cfg st pad).1.pendingEvents k.toNat hlt
    rw [show ((k.toNat : Nat) : Int) = k from Int.toNat_of_nonneg h0] at hiff
    constructor
    · intro ht
      exact (hiff.mp ht).1
    · intro hu
      exact hiff.mpr ⟨hu, hkout⟩

/-- C1 witness: with the sample environment, button 3 newly pressed and
accepted makes key 3 pending and masks bit 3 out of `pollEvents` even though a
device reports it; the analogous release tick clears it again. -/
theorem c1_witness :
    gateButtons sampleCfg ∧
    (3 : Nat) ∈ activeGamepadButtons (some ⟨[true, false, false, true], [], []⟩) ∧
    (3 : Nat) ∉ emptyState.activeButtons ∧
    hasPendingEvent
      (testGamepad sampleCfg emptyState
        (some ⟨[true, false, false, true], [], []⟩)).1.pendingEvents 3 ∧
    (pollEvents [⟨8, 0, 0⟩]
      (testGamepad sampleCfg emptyState
        (some ⟨[true, false, false, true], [], []⟩)).1.pendingEvents).testBit 3 = false :=
  have h := c1_poll_suppression.2.1 sampleCfg emptyState
    (some ⟨[true, false, false, true], [], []⟩) 3 3 (by decide) (by decide) (by decide)
    (by decide) (by decide) (by decide) (by decide) (by decide) (by decide)
  ⟨by decide, by decide, by decide, h.1, h.2 [⟨8, 0, 0⟩]⟩

/-! ## Claim C2: axis threshold and transition semantics -/

/-- C2 counterexample: with threshold 0 and center 0, a reading of 0 on axis 0
satisfies `v - c ≤ -t`, yet `(0, NEGATIVE)` is not in the active-axis set —
the `v - c ≥ t` branch fires first and inserts `(0, POSITIVE)` instead.  So the
claimed iff for NEGATIVE fails for non-positive thresholds. -/
theorem c2_counterexample :
    ((0 : Int) - ({ sampleCfg with threshold := fun _ => 0 } : TickCfg).center 0 ≤
      -(({ sampleCfg with threshold := fun _ => 0 } : TickCfg).threshold 0)) ∧
    (0, AxisDir.neg) ∉
      activeGamepadAxes ({ sampleCfg with threshold := fun _ => 0 } : TickCfg).center
        ({ sampleCfg with threshold := fun _ => 0 } : TickCfg).threshold
        (some ⟨[], [0], []⟩) := by
  exact ⟨by decide, by decide⟩

/-- C2 (amended): for an axis with reading `v`, center `c` and positive threshold `t`,
`(i, POSITIVE)` is active iff `v - c ≥ t` and `(i, NEGATIVE)` iff
`v - c ≤ -t`; a reading strictly within `c ± t` is never active, so a control
that was inactive stays inactive and triggers no transition; crossing the
boundary triggers exactly one down event and no up event; returning within
bounds triggers exactly one up event and no down event; and a tick whose
current active set equals the previous one dispatches no axis events at
all. -/
theorem c2_axis_threshold_transitions :
    ∀ (cfg : TickCfg) (st : CtrlState) (pad : Pad) (i : Nat) (v : Int),
      pad.axes.get? i = some v →
      (0 < cfg.threshold i →
        (((i, AxisDir.pos) ∈ activeGamepadAxes cfg.center cfg.threshold (some pad)) ↔
          cfg.threshold i ≤ v - cfg.center i) ∧
        (((i, AxisDir.neg) ∈ activeGamepadAxes cfg.center cfg.threshold (some pad)) ↔
          v - cfg.center i ≤ -cfg.threshold i)) ∧
      (∀ d : AxisDir,
        -cfg.threshold i < v - cfg.center i → v - cfg.center i < cfg.threshold i →
        ((i, d) ∉ activeGamepadAxes cfg.center cfg.threshold (some pad) ∧
         ((i, d) ∉ st.activeAxes →
           Ev.axisDown i d ∉ (testGamepad cfg st (some pad)).2 ∧
           Ev.axisUp i d ∉ (testGamepad cfg st (some pad)).2))) ∧
      (∀ d : AxisDir, gateAxes cfg →
        (i, d) ∉ st.activeAxes →
        (i, d) ∈ activeGamepadAxes cfg.center cfg.threshold (some pad) →
        (testGamepad cfg st (some pad)).2.count (Ev.axisDown i d) = 1 ∧
        (testGamepad cfg st (some pad)).2.count (Ev.axisUp i d) = 0) ∧
      (∀ d : AxisDir, gateAxes cfg → st.activeAxes.Nodup →
        (i, d) ∈ st.activeAxes →
        (i, d) ∉ activeGamepadAxes cfg.center cfg.threshold (some pad) →
        (testGamepad cfg st (some pad)).2.count (Ev.axisUp i d) = 1 ∧
        (testGamepad cfg st (some pad)).2.count (Ev.axisDown i d) = 0) ∧
      (st.activeAxes = activeGamepadAxes cfg.center cfg.threshold (some pad) →
        ∀ (j : Nat) (e : AxisDir),
          Ev.axisDown j e ∉ (testGamepad cfg st (some pad)).2 ∧
          Ev.axisUp j e ∉ (testGamepad cfg st (some pad)).2) := by
  intro cfg st pad i v hv
  have hval : pad.axes.getD i 0 = v := by
    have hrfl : pad.axes.getD i 0 = (pad.axes.get? i).getD 0 := rfl
    rw [hrfl, hv]
    rfl
  obtain ⟨hlen, _⟩ := List.get?_eq_some.mp hv
  refine ⟨?_, ?_, ?_, ?_, ?_⟩
  · intro ht
    constructor
    · rw [mem_activeGamepadAxes_pos, hval]
      constructor
      · rintro ⟨_, h⟩
        exact h
      · intro h
        exact ⟨hlen, h⟩
    · rw [mem_activeGamepadAxes_neg, hval]
      constructor
      · rintro ⟨_, h, _⟩
        exact h
      · intro h
        exact ⟨hlen, h, by omega⟩
  · intro d h1 h2
    have hnc : (i, d) ∉ activeGamepadAxes cfg.center cfg.threshold (some pad) := by
      cases d with
      | pos =>
        rw [mem_activeGamepadAxes_pos, hval]
        rintro ⟨_, h⟩
        omega
      | neg =>
        rw [mem_activeGamepadAxes_neg, hval]
        rintro ⟨_, h, _⟩
        omega
    refine ⟨hnc, ?_⟩
    intro hno
    constructor
    · intro habs
      exact hnc ((axisDown_mem_events cfg st (some pad) i d).mp habs).2.1
    · intro habs
      exact hno ((axisUp_mem_events cfg st (some pad) i d).mp habs).2.1
  · intro d hg hold hcur
    constructor
    · rw [count_axisDown_events, if_pos ⟨hg, mem_listDiff.mpr ⟨hcur, hold⟩⟩]
    · rw [List.count_eq_zero]
      intro habs
      exact ((axisUp_mem_events cfg st (some pad) i d).mp habs).2.2 hcur
  · intro d hg hnd hold hcur
    constructor
    · rw [count_axisUp_events cfg st (some pad) i d hnd,
        if_pos ⟨hg, mem_listDiff.mpr ⟨hold, hcur⟩⟩]
    · rw [List.count_eq_zero]
      intro habs
      exact hcur ((axisDown_mem_events cfg st (some pad) i d).mp habs).2.1
  · intro hsame j e
    constructor
    · intro habs
      have h := (axisDown_mem_events cfg st (some pad) j e).mp habs
      rw [hsame] at h
      exact h.2.2 h.2.1
    · intro habs
      have h := (axisUp_mem_events cfg st (some pad) j e).mp habs
      rw [hsame] at h
      exact h.2.2 h.2.1

/-- C2 witness: with center 0 and threshold 100, a reading of 150 on axis 0
makes the positive direction newly active and a focused tick dispatches
exactly one down event and no up event. -/
theorem c2_witness :
    ([(150 : Int)].get? 0 = some 150) ∧
    (0 : Int) < sampleCfg.threshold 0 ∧
    ((0, AxisDir.pos) ∈ activeGamepadAxes sampleCfg.center sampleCfg.threshold
      (some ⟨[], [150], []⟩) ↔ sampleCfg.threshold 0 ≤ 150 - sampleCfg.center 0) ∧
    gateAxes sampleCfg ∧
    (0, AxisDir.pos) ∉ emptyState.activeAxes ∧
    (0, AxisDir.pos) ∈ activeGamepadAxes sampleCfg.center sampleCfg.threshold
      (some ⟨[], [150], []⟩) ∧
    ((testGamepad sampleCfg emptyState (some ⟨[], [150], []⟩)).2.count
        (Ev.axisDown 0 AxisDir.pos) = 1 ∧
      (testGamepad sampleCfg emptyState (some ⟨[], [150], []⟩)).2.count
        (Ev.axisUp 0 AxisDir.pos) = 0) :=
  ⟨rfl, by decide,
   ((c2_axis_threshold_transitions sampleCfg emptyState ⟨[], [150], []⟩ 0 150 rfl).1
      (by decide)).1,
   by decide, by decide, by decide,
   (c2_axis_threshold_transitions sampleCfg emptyState ⟨[], [150], []⟩ 0 150 rfl).2.2.1
     AxisDir.pos (by decide) (by decide) (by decide)⟩
